import Mathlib

/-!
Verification development for the statement-parsing engine
(`backend/services/statement_parser.py`) and the recurring-pattern detector
(`backend/services/categorizer.py`) of the networth-pro repository.

The Python code is shallowly embedded: strings become `String`/`List Char`,
Python `float` amounts become `ℚ` (the amounts exercised here are decimal
literals, for which the sign and comparison behaviour proved below coincides
with the float behaviour of the source), `datetime` dates become a
year/month/day record, `None`-returning fallible code returns `Option`,
and the module-level mutable `_detected_date_format` becomes an explicit
state value (`Option String`) threaded through the functions that read or
write it.
-/

set_option linter.unusedVariables false
set_option maxRecDepth 100000

namespace NetworthProof

/-- Whitespace characters recognised by the embedding of Python's
`str.strip` / `\s` (the ASCII whitespace class; the inputs treated here
contain no other whitespace). -/
def pySpace (c : Char) : Bool :=
  c == ' ' || c == '\t' || c == '\n' || c == '\r' || c == '\x0b' || c == '\x0c'

/-- Drop leading characters satisfying `p` and trailing characters
satisfying `p` (embedding of Python `str.strip()` via `pySpace`). -/
def trimRightP (p : Char → Bool) (l : List Char) : List Char :=
  ((l.reverse).dropWhile p).reverse

def stripL (l : List Char) : List Char :=
  trimRightP pySpace (l.dropWhile pySpace)

def pyStrip (s : String) : String := String.mk (stripL s.toList)

/-- Boolean test: does `pat` occur as a contiguous substring of `l`
(embedding of Python's `in` on strings)? -/
def containsSub (pat : List Char) : List Char → Bool
  | [] => pat.isEmpty
  | c :: rest => pat.isPrefixOf (c :: rest) || containsSub pat rest

/-- First position (if any) at which `pat` occurs as a substring of `l`. -/
def findSub (pat : List Char) : List Char → Option Nat
  | [] => if pat.isEmpty then some 0 else none
  | c :: rest =>
    if pat.isPrefixOf (c :: rest) then some 0
    else (findSub pat rest).map (· + 1)

def digitsToNat (l : List Char) : Nat :=
  l.foldl (fun acc c => acc * 10 + (c.toNat - 48)) 0

/-- Embedding of Python `int(s)`: strip whitespace, optional sign, then a
non-empty run of digits (underscored literals are not exercised here). -/
def pyInt (l : List Char) : Option Int :=
  let l := stripL l
  match l with
  | [] => none
  | '-' :: rest =>
    if rest ≠ [] && rest.all Char.isDigit then some (-(digitsToNat rest : Int)) else none
  | '+' :: rest =>
    if rest ≠ [] && rest.all Char.isDigit then some (digitsToNat rest : Int) else none
  | _ =>
    if l.all Char.isDigit then some (digitsToNat l : Int) else none

/-- Rational arithmetic helpers built on `mkRat` so that every concrete
run reduces inside the kernel (the library's field operations on `ℚ` are
irreducible).  They agree with `+`, `-`, `/` on `ℚ`, which is proved where
a theorem needs it. -/
def qAdd (a b : ℚ) : ℚ := mkRat (a.num * b.den + b.num * a.den) (a.den * b.den)

def qNeg (a : ℚ) : ℚ := mkRat (-a.num) a.den

def qSub (a b : ℚ) : ℚ := qAdd a (qNeg b)

def qDiv (a b : ℚ) : ℚ :=
  mkRat (a.num * b.den * (if b.num < 0 then -1 else 1)) (a.den * b.num.natAbs)

/-- Embedding of Python `float(s)` restricted to plain decimal literals
(optional sign, digits with at most one point; exponents, `inf`/`nan` and
underscores are never produced by the cleaning steps exercised here).
The result is the exact rational value of the literal. -/
def strToFloat (l : List Char) : Option ℚ :=
  let l := stripL l
  let (sign, rest) : Int × List Char :=
    if l.head? = some '-' then (-1, l.drop 1)
    else if l.head? = some '+' then (1, l.drop 1)
    else (1, l)
  let intPart := rest.takeWhile Char.isDigit
  let rest2 := rest.drop intPart.length
  if rest2.isEmpty then
    (if intPart = [] then none
     else some (mkRat (sign * (digitsToNat intPart : Int)) 1))
  else if rest2.head? = some '.' then
    let rest3 := rest2.drop 1
    let fracPart := rest3.takeWhile Char.isDigit
    if rest3.drop fracPart.length ≠ [] then none
    else if intPart = [] ∧ fracPart = [] then none
    else some (mkRat
      (sign * ((digitsToNat intPart : Int) * 10 ^ fracPart.length +
        (digitsToNat fracPart : Int)))
      (10 ^ fracPart.length))
  else none

/-- Computable embedding of Python `abs` on rationals (kept away from the
lattice-derived `|·|` so that concrete runs reduce in the kernel). -/
def pyAbs (q : ℚ) : ℚ := if q.num < 0 then qNeg q else q

/-- Currency symbols stripped by `parse_amount` (the regex `[$£€¥₹₿]`). -/
def currencySymbols : List Char := ['$', '£', '€', '¥', '₹', '₿']

/-- Explicit leading sign (parse_amount lines 149-155): a leading `-`
sets the negative flag and strips all leading `-`/spaces, a leading `+`
is dropped. -/
def paSign (cleaned : List Char) : Bool × List Char :=
  if cleaned.head? = some '-' then
    (true, cleaned.dropWhile (fun c => c == '-' || c == ' '))
  else if cleaned.head? = some '+' then (false, cleaned.drop 1)
  else (false, cleaned)

/-- Currency handling (lines 157-166): a minus adjacent to a currency
symbol forces negative, symbols are stripped, and a minus now exposed at
the start sets the flag. -/
def paCurrency (neg1 : Bool) (c1 : List Char) : Bool × List Char :=
  let neg2 := neg1 || containsSub ['$', '-'] c1 || containsSub ['$', ' ', '-'] c1
  let c2 := stripL (c1.filter (fun c => !(currencySymbols.contains c)))
  if c2.head? = some '-' then (true, c2.drop 1) else (neg2, c2)

/-- Thousands separators and inner spaces removed (lines 168-169). -/
def paSeparators (c3 : List Char) : List Char :=
  (c3.filter (· ≠ ',')).filter (· ≠ ' ')

/-- Accounting parentheses (lines 171-174). -/
def paParens (neg3 : Bool) (c4 : List Char) : Bool × List Char :=
  if c4.head? = some '(' ∧ c4.getLast? = some ')' then (true, (c4.drop 1).dropLast)
  else (neg3, c4)

/-- CR/DR suffixes (lines 176-182): CR forces positive, DR negative. -/
def paSuffix (neg4 : Bool) (c5 : List Char) : Bool × List Char :=
  let upper := c5.map Char.toUpper
  if upper.drop (upper.length - 2) = ['C', 'R'] then (false, c5.take (c5.length - 2))
  else if upper.drop (upper.length - 2) = ['D', 'R'] then (true, c5.take (c5.length - 2))
  else (neg4, c5)

/-- Currency step applied to a sign-step result (threads the flag and the
remaining characters). -/
def paCurrencyP (p : Bool × List Char) : Bool × List Char := paCurrency p.1 p.2

/-- Separator removal followed by the parenthesis step. -/
def paParensP (p : Bool × List Char) : Bool × List Char := paParens p.1 (paSeparators p.2)

/-- Suffix step applied to a parenthesis-step result. -/
def paSuffixP (p : Bool × List Char) : Bool × List Char := paSuffix p.1 p.2

/-- The full cleaning pipeline of `parse_amount` (lines 149-182), in the
order the source applies the steps. -/
def paPipeline (cleaned : List Char) : Bool × List Char :=
  paSuffixP (paParensP (paCurrencyP (paSign cleaned)))

/-- Shallow embedding of `parse_amount` (statement_parser.py lines 127-188)
on character lists, as the composition of its cleaning steps.
`default_negative` is accepted but, as in the source, never used. -/
def parseAmountL (s0 : List Char) (default_negative : Bool) : Option ℚ :=
  if s0.isEmpty then none
  else
    if (stripL s0).isEmpty then none
    else
      match strToFloat (paPipeline (stripL s0)).2 with
      | some v => some (if (paPipeline (stripL s0)).1 then qNeg (pyAbs v) else pyAbs v)
      | none => none

/-- `parse_amount` on `String`s, mirroring the Python signature (the unused
`default_negative` keyword defaults to `false`). -/
def parse_amount (amount_str : String) (default_negative : Bool := false) : Option ℚ :=
  parseAmountL amount_str.toList default_negative

/-! ### Dates

`datetime` values are embedded as year/month/day records; `strptime` for
the fixed format strings of the source is embedded one format at a time,
including the calendar validation performed by the `datetime` constructor. -/

structure PDate where
  year : Nat
  month : Nat
  day : Nat
deriving DecidableEq, Repr

def isLeapYear (y : Nat) : Bool :=
  y % 4 = 0 && (y % 100 ≠ 0 || y % 400 = 0)

def daysInMonth (y m : Nat) : Nat :=
  if m = 2 then (if isLeapYear y then 29 else 28)
  else if m = 4 ∨ m = 6 ∨ m = 9 ∨ m = 11 then 30
  else 31

/-- Calendar validation done by the `datetime(year, month, day)`
constructor: the match of a format only yields a date when it denotes a
real calendar day. -/
def mkValidDate (y m d : Nat) : Option PDate :=
  if 1 ≤ y ∧ y ≤ 9999 ∧ 1 ≤ m ∧ m ≤ 12 ∧ 1 ≤ d ∧ d ≤ daysInMonth y m then
    some ⟨y, m, d⟩
  else none

/-- Split on every single occurrence of `sep`, keeping empty parts
(the behaviour of `re.split` on a character class). -/
def splitSep (sep : Char) : List Char → List (List Char)
  | [] => [[]]
  | c :: rest =>
    let r := splitSep sep rest
    if c = sep then [] :: r
    else
      match r with
      | h :: t => (c :: h) :: t
      | [] => [[c]]

/-- Split on any of several separator characters, keeping empty parts. -/
def splitSeps (seps : List Char) : List Char → List (List Char)
  | [] => [[]]
  | c :: rest =>
    let r := splitSeps seps rest
    if seps.contains c then [] :: r
    else
      match r with
      | h :: t => (c :: h) :: t
      | [] => [[c]]

/-- A `%d` or `%m` field as matched by `strptime` between separators: one
or two digits whose value lies in `[1, hi]` (the field must consume the
whole part, the next character being the literal separator). -/
def num12 (hi : Nat) (p : List Char) : Option Nat :=
  if p ≠ [] ∧ p.length ≤ 2 ∧ p.all Char.isDigit then
    let v := digitsToNat p
    if 1 ≤ v ∧ v ≤ hi then some v else none
  else none

/-- A `%Y` field: exactly four digits (year 0000 is then rejected by the
`datetime` constructor, kept here for clarity). -/
def numY4 (p : List Char) : Option Nat :=
  if p.length = 4 ∧ p.all Char.isDigit then some (digitsToNat p) else none

/-- A `%y` field: exactly two digits, mapped to 2000-2068 / 1969-1999 as
`strptime` does. -/
def numY2 (p : List Char) : Option Nat :=
  if p.length = 2 ∧ p.all Char.isDigit then
    let v := digitsToNat p
    some (if v ≤ 68 then 2000 + v else 1900 + v)
  else none

/-- Embedding of `strptime` for a numeric day-first format
`%d<sep>%m<sep>%Y` (or `%y` when `twoYear`). -/
def fmtDMY (sep : Char) (twoYear : Bool) (l : List Char) : Option PDate :=
  match splitSep sep l with
  | [dp, mp, yp] => do
    let d ← num12 31 dp
    let m ← num12 12 mp
    let y ← if twoYear then numY2 yp else numY4 yp
    mkValidDate y m d
  | _ => none

/-- Embedding of `strptime` for a numeric month-first format
`%m<sep>%d<sep>%Y` (or `%y`). -/
def fmtMDY (sep : Char) (twoYear : Bool) (l : List Char) : Option PDate :=
  match splitSep sep l with
  | [mp, dp, yp] => do
    let m ← num12 12 mp
    let d ← num12 31 dp
    let y ← if twoYear then numY2 yp else numY4 yp
    mkValidDate y m d
  | _ => none

/-- Embedding of `strptime` for `%Y<sep>%m<sep>%d`. -/
def fmtYMD (sep : Char) (l : List Char) : Option PDate :=
  match splitSep sep l with
  | [yp, mp, dp] => do
    let y ← numY4 yp
    let m ← num12 12 mp
    let d ← num12 31 dp
    mkValidDate y m d
  | _ => none

def monthAbbrs : List String :=
  ["jan", "feb", "mar", "apr", "may", "jun", "jul", "aug", "sep", "oct", "nov", "dec"]

def monthFulls : List String :=
  ["january", "february", "march", "april", "may", "june", "july", "august",
   "september", "october", "november", "december"]

def monthFromName (full : Bool) (tok : List Char) : Option Nat :=
  let names := if full then monthFulls else monthAbbrs
  let t := String.mk (tok.map Char.toLower)
  match names.indexOf? t with
  | some i => some (i + 1)
  | none => none

/-- Split on runs of whitespace, dropping empty parts (used for the
named-month formats, whose tokens are separated by spaces). -/
def splitSpaces (l : List Char) : List (List Char) :=
  (splitSeps [' ', '\t'] l).filter (· ≠ [])

/-- Embedding of `strptime` for `"%b %d, %Y"` / `"%B %d, %Y"`
(e.g. `Jan 15, 2024`). -/
def fmtBDY (full : Bool) (l : List Char) : Option PDate :=
  match splitSpaces l with
  | [t1, t2, t3] => do
    let m ← monthFromName full t1
    if t2.getLast? = some ',' then
      let d ← num12 31 t2.dropLast
      let y ← numY4 t3
      mkValidDate y m d
    else none
  | _ => none

/-- Embedding of `strptime` for `"%d %b %Y"` / `"%d %B %Y"`
(e.g. `15 Jan 2024`). -/
def fmtDBY (full : Bool) (l : List Char) : Option PDate :=
  match splitSpaces l with
  | [t1, t2, t3] => do
    let d ← num12 31 t1
    let m ← monthFromName full t2
    let y ← numY4 t3
    mkValidDate y m d
  | _ => none

/-- `DATE_FORMATS_DMY` (statement_parser.py lines 41-47). -/
def DATE_FORMATS_DMY : List (List Char → Option PDate) :=
  [fmtDMY '/' false, fmtDMY '-' false, fmtDMY '.' false, fmtDMY '/' true, fmtDMY '-' true]

/-- `DATE_FORMATS_MDY` (lines 49-53). -/
def DATE_FORMATS_MDY : List (List Char → Option PDate) :=
  [fmtMDY '/' false, fmtMDY '/' true, fmtMDY '-' false]

/-- `DATE_FORMATS_OTHER` (lines 55-62). -/
def DATE_FORMATS_OTHER : List (List Char → Option PDate) :=
  [fmtYMD '-', fmtYMD '/', fmtBDY false, fmtBDY true, fmtDBY false, fmtDBY true]

/-- First `some` in a list of attempts (the `for fmt in formats_to_try`
loop: the first format that parses wins). -/
def firstSome : List (Option α) → Option α
  | [] => none
  | some x :: _ => some x
  | none :: rest => firstSome rest

/-- Python `or` on the hint strings: `None` and `""` are falsy. -/
def pyOrStr (a : Option String) (b : Option String) : Option String :=
  match a with
  | some s => if s = "" then b else some s
  | none => b

/-- The hint actually used: `format_hint or _detected_date_format or "DMY"`
(line 102), with the module-level `_detected_date_format` made an explicit
`st` argument. -/
def resolveHint (format_hint st : Option String) : String :=
  (pyOrStr format_hint (pyOrStr st (some "DMY"))).getD "DMY"

def formatsFor (hint : String) : List (List Char → Option PDate) :=
  if hint = "DMY" then DATE_FORMATS_DMY ++ DATE_FORMATS_OTHER ++ DATE_FORMATS_MDY
  else DATE_FORMATS_MDY ++ DATE_FORMATS_OTHER ++ DATE_FORMATS_DMY

/-- Shallow embedding of `parse_date` (lines 93-114).  `st` is the value of
the module-level `_detected_date_format`; reading it is the only effect of
the function. -/
def parse_date (date_str : String) (format_hint : Option String := none)
    (st : Option String := none) : Option PDate :=
  let ds := stripL date_str.toList
  if ds.isEmpty then none
  else firstSome ((formatsFor (resolveHint format_hint st)).map (fun f => f ds))

/-- Shallow embedding of `detect_date_format` (lines 68-90). -/
def detect_date_format (date_strings : List String) : String :=
  go date_strings
where
  go : List String → String
  | [] => "DMY"
  | s :: rest =>
    let parts := splitSeps ['/', '-', '.'] (stripL s.toList)
    if parts.length ≥ 2 then
      match pyInt (parts.getD 0 []), pyInt (parts.getD 1 []) with
      | some first, some second =>
        if first > 12 then "DMY"
        else if second > 12 then "MDY"
        else go rest
      | _, _ => go rest
    else go rest

/-- Shallow embedding of `set_date_format_hint` (lines 117-124): the new
value of the module-level `_detected_date_format`. -/
def set_date_format_hint (rows : List (List String)) (date_col : Nat) : Option String :=
  some (detect_date_format ((rows.take 20).filterMap (fun row => row.get? date_col)))

/-! ### Data model -/

/-- The `raw_data` dict attached to a transaction, specialised to the two
shapes the source constructs. -/
inductive RawData where
  | rowData (row_num : Nat) (original : List String)
  | ofxData (content : String)
deriving DecidableEq, Repr

/-- `ParsedTransaction` (statement_parser.py lines 14-23). -/
structure ParsedTransaction where
  date : PDate
  description : String
  amount : ℚ
  merchant : Option String := none
  category_suggestion : Option String := none
  confidence : ℚ := 1
  raw_data : Option RawData := none
deriving DecidableEq, Repr

/-- `StatementParseResult` (lines 26-36). -/
structure StatementParseResult where
  transactions : List ParsedTransaction := []
  errors : List String := []
  warnings : List String := []
  bank_detected : Option String := none
  account_info : Option String := none
  parser_used : String := "unknown"
  headers_detected : Option (List String) := none
  sample_lines : Option (List String) := none
deriving DecidableEq, Repr

/-! ### CSV parser -/

structure BankConfig where
  date_columns : List String
  description_columns : List String
  amount_columns : List String
  debit_columns : List String
  credit_columns : List String

def genericConfig : BankConfig :=
  { date_columns := ["Date", "Trans Date", "Transaction Date", "Posted", "Post Date"],
    description_columns := ["Description", "Memo", "Details", "Payee", "Name", "Merchant"],
    amount_columns := ["Amount", "Total", "Value"],
    debit_columns := ["Debit", "Withdrawal", "Withdrawals", "Outflow"],
    credit_columns := ["Credit", "Deposit", "Deposits", "Inflow"] }

/-- `BANK_CONFIGS` (lines 196-225) as a lookup defaulting to `generic`. -/
def BANK_CONFIGS (bank : String) : BankConfig :=
  if bank = "chase" then
    { date_columns := ["Transaction Date", "Posting Date", "Date"],
      description_columns := ["Description", "Merchant"],
      amount_columns := ["Amount"],
      debit_columns := ["Debit"],
      credit_columns := ["Credit"] }
  else if bank = "bank_of_america" then
    { date_columns := ["Date", "Posted Date"],
      description_columns := ["Description", "Payee"],
      amount_columns := ["Amount"],
      debit_columns := [], credit_columns := [] }
  else if bank = "wells_fargo" then
    { date_columns := ["Date"], description_columns := ["Description"],
      amount_columns := ["Amount"], debit_columns := [], credit_columns := [] }
  else genericConfig

/-- Python `str.lower()`, character by character (the byte-indexed
`String.toLower` of the library does not reduce in the kernel). -/
def lowerStr (s : String) : String := String.mk (s.toList.map Char.toLower)

/-- `detect_bank_from_csv` (lines 228-240). -/
def detect_bank_from_csv (headers : List String) : String :=
  let hl := headers.map (fun h => h.toList.map Char.toLower)
  if hl.any (fun h => containsSub "chase".toList h) then "chase"
  else if hl.any (fun h =>
    containsSub "bank of america".toList h || containsSub "bofa".toList h) then
    "bank_of_america"
  else if hl.any (fun h => containsSub "wells fargo".toList h) then "wells_fargo"
  else "generic"

/-- `find_column` (lines 243-249). -/
def find_column (headers : List String) (possible_names : List String) : Option Nat :=
  let hl := headers.map (fun h => pyStrip (lowerStr h))
  firstSome (possible_names.map (fun name => hl.indexOf? (lowerStr name)))

/-- Consume one optional character matching `p` (a `X?` regex piece). -/
def optChar (p : Char → Bool) (l : List Char) : List Char :=
  match l with
  | c :: rest => if p c then rest else l
  | [] => l

/-- The amount regex of `auto_detect_csv_columns` (line 285):
`^["\x27]?-?\s*\$?\s*[\d,]+\.?\d*["\x27]?$`, applied after commas and
quotes have been removed and ends stripped. -/
def amountRegexA (l : List Char) : Bool :=
  let l := optChar (fun c => c == '"' || c == '\'') l
  let l := optChar (· == '-') l
  let l := l.dropWhile pySpace
  let l := optChar (· == '$') l
  let l := l.dropWhile pySpace
  let digits := l.takeWhile (fun c => c.isDigit || c == ',')
  if digits.isEmpty then false
  else
    let l := l.drop digits.length
    let l := optChar (· == '.') l
    let l := l.dropWhile Char.isDigit
    let l := optChar (fun c => c == '"' || c == '\'') l
    l.isEmpty

/-- Removal of `["\x27,\s$]` (the `re.sub` used before the positivity check
and the bare-number check). -/
def cleanQS (cell : String) : List Char :=
  cell.toList.filter (fun c =>
    !(c == '"' || c == '\'' || c == ',' || pySpace c || c == '$'))

/-- Per-column tally carried by `auto_detect_csv_columns` (the `samples`
list of the source is collected but never used for detection and is
omitted). -/
structure ColStats where
  date_count : Nat := 0
  amount_count : Nat := 0
  text_count : Nat := 0
  has_negative : Bool := false
  has_positive : Bool := false
deriving DecidableEq, Repr

/-- One cell of the analysis loop of `auto_detect_csv_columns`
(lines 271-296).  `st` is the module-level date-format value read by the
embedded `parse_date` calls. -/
def analyzeCell (st : Option String) (stats : ColStats) (cell0 : String) : ColStats :=
  let cell := pyStrip cell0
  if cell = "" then stats
  else if (parse_date cell none st).isSome then
    { stats with date_count := stats.date_count + 1 }
  else if amountRegexA (stripL (cell.toList.filter
      (fun c => !(c == ',' || c == '"' || c == '\'')))) then
    let stats := { stats with amount_count := stats.amount_count + 1 }
    if cell.toList.contains '-' then { stats with has_negative := true }
    else
      match cleanQS cell with
      | c :: _ => if c.isDigit then { stats with has_positive := true } else stats
      | [] => stats
  else { stats with text_count := stats.text_count + 1 }

def colStats (st : Option String) (rows : List (List String)) (i : Nat) : ColStats :=
  ((rows.take 20).filterMap (fun row => row.get? i)).foldl (analyzeCell st) {}

structure DetectedCols where
  date : Option Nat := none
  amount : Option Nat := none
  description : Option Nat := none
deriving DecidableEq, Repr

/-- First element with a strictly maximal count: the effect of the stable
descending sort of the source followed by taking the head. -/
def pickFirstMaxNat (cands : List (Nat × Nat)) : Option Nat :=
  (cands.foldl (fun acc p =>
    match acc with
    | none => some p
    | some q => if p.2 > q.2 then some p else some q) none).map (·.1)

/-- The `amount_score` sort key (line 313): lexicographic on
(has both signs, has negative, raw amount count). -/
def amountKey (c : ColStats) : Bool × Bool × Nat :=
  (c.has_negative && c.has_positive, c.has_negative, c.amount_count)

def keyGT (a b : Bool × Bool × Nat) : Bool :=
  if a.1 = b.1 then
    (if a.2.1 = b.2.1 then decide (a.2.2 > b.2.2) else a.2.1)
  else a.1

def pickStep (acc : Option (Nat × ColStats)) (p : Nat × ColStats) :
    Option (Nat × ColStats) :=
  match acc with
  | none => some p
  | some q => if keyGT (amountKey p.2) (amountKey q.2) then some p else some q

def pickFirstMaxAmt (cands : List (Nat × ColStats)) : Option Nat :=
  (cands.foldl pickStep none).map (·.1)

/-- Shallow embedding of `auto_detect_csv_columns` (lines 252-334), with
the module-level date-format value as the explicit first argument `st`.
The source never puts `debit`/`credit` keys in its result, so the record
has only the three fields it can produce. -/
def auto_detect_csv_columns (st : Option String) (rows : List (List String)) : DetectedCols :=
  if rows.length < 2 then {}
  else
    let num_cols := (rows.map List.length).foldl max 0
    let stats := fun i => colStats st rows i
    let idxs := List.range num_cols
    let dateCol := pickFirstMaxNat
      ((idxs.map (fun i => (i, (stats i).date_count))).filter (fun p => p.2 > 0))
    let amtCol := pickFirstMaxAmt
      ((idxs.map (fun i => (i, stats i))).filter (fun p => p.2.amount_count > 0))
    let used := [dateCol, amtCol].filterMap id
    let descCol := pickFirstMaxNat
      ((idxs.map (fun i => (i, (stats i).text_count))).filter
        (fun p => p.2 > 0 && !(used.contains p.1)))
    { date := dateCol, amount := amtCol, description := descCol }

/-- Character-level embedding of `csv.reader` for the default dialect:
fields split on the delimiter, rows split on newlines (`\n`, `\r`,
`\r\n`), double quotes opening a quoted field in which the delimiter and
newlines are literal and `""` is an escaped quote; a completely empty line
yields an empty row, as `csv.reader` does. -/
def csvAux (delim : Char) :
    List Char → List Char → List String → Bool → Bool → List (List String)
  | [], field, row, _, hasData =>
    if hasData then [row ++ [String.mk field.reverse]] else []
  | '"' :: '"' :: rest2, field, row, true, hasData =>
    csvAux delim rest2 ('"' :: field) row true hasData
  | '"' :: rest, field, row, true, hasData =>
    csvAux delim rest field row false hasData
  | c :: rest, field, row, true, hasData =>
    csvAux delim rest (c :: field) row true hasData
  | '\r' :: '\n' :: rest2, field, row, false, hasData =>
    (if hasData then row ++ [String.mk field.reverse] else []) ::
      csvAux delim rest2 [] [] false false
  | '\r' :: rest, field, row, false, hasData =>
    (if hasData then row ++ [String.mk field.reverse] else []) ::
      csvAux delim rest [] [] false false
  | '\n' :: rest, field, row, false, hasData =>
    (if hasData then row ++ [String.mk field.reverse] else []) ::
      csvAux delim rest [] [] false false
  | c :: rest, field, row, false, hasData =>
    if c = delim then
      csvAux delim rest [] (row ++ [String.mk field.reverse]) false true
    else if c = '"' ∧ field.isEmpty then
      csvAux delim rest field row true true
    else csvAux delim rest (c :: field) row false true

/-- Delimiter detection (lines 344-348): prefer tab over comma when it
occurs more often in the first ~2KB. -/
def csvDelimiter (content : String) : Char :=
  let sample := content.toList.take 2000
  if sample.contains '\t' ∧ sample.count '\t' > sample.count ',' then '\t' else ','

def csvRows (content : String) : List (List String) :=
  csvAux (csvDelimiter content) content.toList [] [] false false

/-- The bare-number data-row regex (line 375): `^-?\d+\.?\d*$`. -/
def bareNumberMatch (l : List Char) : Bool :=
  let l := optChar (· == '-') l
  let digits := l.takeWhile Char.isDigit
  if digits.isEmpty then false
  else
    let l := l.drop digits.length
    let l := optChar (· == '.') l
    let l := l.dropWhile Char.isDigit
    l.isEmpty

/-- One cell of the header-vs-data check (lines 369-377). -/
def looksLikeDataCell (st : Option String) (cell : String) : Bool :=
  (parse_date cell none st).isSome || bareNumberMatch (cleanQS cell)

def firstRowIsData (st : Option String) (row : List String) : Bool :=
  row.any (looksLikeDataCell st)

structure ColsOpt where
  date : Option Nat := none
  desc : Option Nat := none
  amount : Option Nat := none
  debit : Option Nat := none
  credit : Option Nat := none

/-- Header-based column lookup (lines 399-409). -/
def headerCols (headers : List String) : ColsOpt :=
  let config := BANK_CONFIGS (detect_bank_from_csv headers)
  { date := find_column headers config.date_columns,
    desc := find_column headers config.description_columns,
    amount := find_column headers config.amount_columns,
    debit := find_column headers config.debit_columns,
    credit := find_column headers config.credit_columns }

/-- Resolved columns used by the row loop (`date_col` and `desc_col` are
known to be present there). -/
structure CsvCols where
  date : Nat
  desc : Nat
  amount : Option Nat
  debit : Option Nat
  credit : Option Nat

def maxColOf (c : CsvCols) : Nat :=
  (([some c.date, some c.desc, c.amount, c.debit, c.credit].filterMap id).foldl max 0)

def rowDate (st : Option String) (c : CsvCols) (row : List String) : Option PDate :=
  parse_date (row.getD c.date "") none st

def rowDesc (c : CsvCols) (row : List String) : String :=
  if c.desc < row.length then pyStrip (row.getD c.desc "") else ""

/-- Amount resolution of the row loop (lines 464-479): the unified amount
column if present and non-blank, otherwise the debit/credit fallback. -/
def rowAmount (c : CsvCols) (row : List String) : Option ℚ :=
  let fromMain : Option (Option ℚ) :=
    match c.amount with
    | some ac =>
      if ac < row.length ∧ pyStrip (row.getD ac "") ≠ "" then
        some (parse_amount (row.getD ac ""))
      else none
    | none => none
  match fromMain with
  | some r => r
  | none =>
    if c.debit.isSome ∨ c.credit.isSome then
      let debit : Option ℚ :=
        match c.debit with
        | some dc =>
          if dc < row.length ∧ pyStrip (row.getD dc "") ≠ "" then
            parse_amount (row.getD dc "")
          else none
        | none => none
      let credit : Option ℚ :=
        match c.credit with
        | some cc =>
          if cc < row.length ∧ pyStrip (row.getD cc "") ≠ "" then
            parse_amount (row.getD cc "")
          else none
        | none => none
      let fromCredit : Option ℚ :=
        match credit with
        | some cr => if cr ≠ 0 then some (pyAbs cr) else none
        | none => none
      match debit with
      | some d => if d ≠ 0 then some (qNeg (pyAbs d)) else fromCredit
      | none => fromCredit
    else none

/-- One iteration of the row loop (lines 448-490): `none` means the row is
skipped (`continue`). -/
def parseRow (st : Option String) (c : CsvCols) (row_num : Nat)
    (row : List String) : Option ParsedTransaction :=
  if row.length ≤ maxColOf c then none
  else
    match rowDate st c row with
    | none => none
    | some date =>
      let description := rowDesc c row
      if description = "" then none
      else
        match rowAmount c row with
        | none => none
        | some amount =>
          if amount = 0 then none
          else some { date := date, description := description, amount := amount,
                      raw_data := some (.rowData row_num row) }

def processRows (st : Option String) (c : CsvCols) :
    Nat → List (List String) → List ParsedTransaction
  | _, [] => []
  | n, row :: rest =>
    match parseRow st c n row with
    | some t => t :: processRows st c (n + 1) rest
    | none => processRows st c (n + 1) rest

def sq : String := String.mk [Char.ofNat 39]

def pyReprStr (s : String) : String := sq ++ s ++ sq

/-- Python `str(...)` of a list of strings, as used for the
`sample_lines` debug field. -/
def pyReprStrList (xs : List String) : String :=
  "[" ++ String.intercalate ", " (xs.map pyReprStr) ++ "]"

def pyOptNatRepr (o : Option Nat) : String :=
  match o with
  | some n => toString n
  | none => "None"

/-- Everything `parse_csv_statement` computes between reading the rows
and parsing them (lines 357-445): header detection, debug fields and
column resolution.  Bundled so that the branch analysis in the theorems
has small named scrutinees. -/
structure CsvSetup where
  header_idx : Nat
  headers : List String
  data_rows : List (List String)
  warns : List String
  hdrDet : Option (List String)
  sampleL : Option (List String)
  bank : Option String
  dateCol : Option Nat
  descCol : Option Nat
  amountCol : Option Nat
  debitCol : Option Nat
  creditCol : Option Nat

def csvSetup (content : String) (st : Option String) : CsvSetup :=
  let rows := csvRows content
  let header_idx := (rows.findIdx? (fun row => row.any (fun cell => pyStrip cell ≠ ""))).getD 0
  let first_row := (rows.getD header_idx []).map pyStrip
  let frd := firstRowIsData st first_row
  let headers : List String := if frd then [] else first_row
  let data_rows := if frd then rows.drop header_idx else rows.drop (header_idx + 1)
  let hc : ColsOpt := if headers.isEmpty then {} else headerCols headers
  let bank0 : Option String :=
    if headers.isEmpty then none else some (detect_bank_from_csv headers)
  let needAuto := hc.date.isNone ∨ hc.desc.isNone ∨
    (hc.amount.isNone ∧ hc.debit.isNone ∧ hc.credit.isNone)
  let auto := if needAuto then auto_detect_csv_columns st data_rows else {}
  let dateCol := hc.date <|> auto.date
  let amountCol := hc.amount <|> auto.amount
  let debitCol := hc.debit
  let creditCol := hc.credit
  -- the description fallback loop (lines 434-439) runs only once a date
  -- column is known
  let descCol : Option Nat :=
    match dateCol with
    | none => none
    | some dc =>
      match hc.desc <|> auto.description with
      | some x => some x
      | none =>
        (List.range headers.length).find? (fun i =>
          i ≠ dc ∧ amountCol ≠ some i ∧ debitCol ≠ some i ∧ creditCol ≠ some i)
  { header_idx := header_idx, headers := headers, data_rows := data_rows,
    warns := if frd then ["No header row detected - using auto-detection"] else [],
    hdrDet := some (if headers.isEmpty then ["(no headers - auto-detected)"] else headers),
    sampleL := some ((data_rows.take 3).map pyReprStrList),
    bank := if needAuto then some "auto-detected" else bank0,
    dateCol := dateCol, descCol := descCol, amountCol := amountCol,
    debitCol := debitCol, creditCol := creditCol }

/-- The `StatementParseResult` produced by `parse_csv_statement`
(lines 337-501).  `st` is the incoming value of the module-level
`_detected_date_format`; the updated value is `csvState` below, and
`parse_csv_statement` packages the two together. -/
def csvResult (content : String) (st : Option String) : StatementParseResult :=
  if (csvRows content).length < 2 then
    { parser_used := "csv",
      errors := ["CSV file appears to be empty or has no data rows"] }
  else
    let s := csvSetup content st
    match s.dateCol with
    | none =>
      { parser_used := "csv", bank_detected := s.bank, headers_detected := s.hdrDet,
        sample_lines := s.sampleL, warnings := s.warns,
        errors := ["Could not find date column. Headers: " ++ pyReprStrList s.headers] }
    | some dc =>
      match s.descCol with
      | none =>
        { parser_used := "csv", bank_detected := s.bank, headers_detected := s.hdrDet,
          sample_lines := s.sampleL, warnings := s.warns,
          errors := ["Could not find description column. Headers: " ++ pyReprStrList s.headers] }
      | some dsc =>
        if s.amountCol.isNone ∧ s.debitCol.isNone ∧ s.creditCol.isNone then
          { parser_used := "csv", bank_detected := s.bank, headers_detected := s.hdrDet,
            sample_lines := s.sampleL, warnings := s.warns,
            errors := ["Could not find amount column. Headers: " ++ pyReprStrList s.headers] }
        else
          let txns := processRows (set_date_format_hint s.data_rows dc)
            ⟨dc, dsc, s.amountCol, s.debitCol, s.creditCol⟩ (s.header_idx + 2) s.data_rows
          { parser_used := "csv", bank_detected := s.bank, headers_detected := s.hdrDet,
            sample_lines := s.sampleL, warnings := s.warns, transactions := txns,
            errors := if txns.isEmpty then
              ["No valid transactions found. Detected columns - Date: " ++
                pyOptNatRepr (some dc) ++ ", Desc: " ++ pyOptNatRepr (some dsc) ++
                ", Amount: " ++ pyOptNatRepr s.amountCol]
            else [] }

/-- The value of the module-level `_detected_date_format` after
`parse_csv_statement`: `set_date_format_hint` runs exactly when a date
column was resolved (line 433). -/
def csvState (content : String) (st : Option String) : Option String :=
  if (csvRows content).length < 2 then st
  else
    match (csvSetup content st).dateCol with
    | none => st
    | some dc => set_date_format_hint (csvSetup content st).data_rows dc

/-- Shallow embedding of `parse_csv_statement`: the result together with
the updated module-level date-format value. -/
def parse_csv_statement (content : String) (st : Option String) :
    StatementParseResult × Option String :=
  (csvResult content st, csvState content st)

/-! ### OFX/QFX parser -/

def upperL (l : List Char) : List Char := l.map Char.toUpper

/-- Blocks matched by `<STMTTRN>(.*?)</STMTTRN>` with `DOTALL` and
`IGNORECASE` (line 516): each open tag paired with the nearest following
close tag, scanning left to right without overlap.  `fuel` bounds the
recursion and is instantiated with the content length, which the
per-step consumption makes sufficient. -/
def extractBlocks1 : Nat → List Char → List (List Char)
  | 0, _ => []
  | fuel + 1, l =>
    match findSub "<STMTTRN>".toList (upperL l) with
    | none => []
    | some i =>
      let afterOpen := l.drop (i + 9)
      match findSub "</STMTTRN>".toList (upperL afterOpen) with
      | none => []
      | some j => afterOpen.take j :: extractBlocks1 fuel (afterOpen.drop (j + 10))

/-- Blocks matched by the fallback pattern
`<STMTTRN>(.*?)(?=<STMTTRN>|</BANKTRANLIST>|$)` (line 521): each open tag
captures lazily up to the next open tag, the closing list tag, or the end
of input. -/
def extractBlocks2 : Nat → List Char → List (List Char)
  | 0, _ => []
  | fuel + 1, l =>
    match findSub "<STMTTRN>".toList (upperL l) with
    | none => []
    | some i =>
      let afterOpen := l.drop (i + 9)
      let stop1 := (findSub "<STMTTRN>".toList (upperL afterOpen)).getD afterOpen.length
      let stop2 := (findSub "</BANKTRANLIST>".toList (upperL afterOpen)).getD afterOpen.length
      -- `$` also matches just before a trailing newline
      let stop3 := if afterOpen.getLast? = some '\n' then afterOpen.length - 1 else afterOpen.length
      let stop := min stop1 (min stop2 stop3)
      afterOpen.take stop :: extractBlocks2 fuel (afterOpen.drop stop)

/-- First match of `<tag>([^<\n]+)`: the first tag occurrence followed by
at least one capturable character; the capture is returned stripped, as
`get_field` does (line 542).  `tagU` is compared case-insensitively when
`ci` is set (the per-transaction fields use `re.IGNORECASE`, the
document-level `ORG`/`ACCTID` searches do not). -/
def findTagField (ci : Bool) (tag : List Char) : List Char → Option String
  | [] => none
  | c :: rest =>
    let here := if ci then tag.isPrefixOf (upperL (c :: rest)) else tag.isPrefixOf (c :: rest)
    if here then
      let cap := ((c :: rest).drop tag.length).takeWhile (fun ch => ch ≠ '<' ∧ ch ≠ '\n')
      if cap.isEmpty then findTagField ci tag rest else some (pyStrip (String.mk cap))
    else findTagField ci tag rest

/-- `strptime(date_str[:8], "%Y%m%d")`: four year digits, two month
digits, two day digits, calendar-checked. -/
def parseYmd8 (l : List Char) : Option PDate :=
  match l with
  | [y1, y2, y3, y4, m1, m2, d1, d2] =>
    if [y1, y2, y3, y4, m1, m2, d1, d2].all Char.isDigit then
      mkValidDate (digitsToNat [y1, y2, y3, y4]) (digitsToNat [m1, m2]) (digitsToNat [d1, d2])
    else none
  | _ => none

/-- One `<STMTTRN>` block turned into a transaction (lines 537-574);
`none` is a skipped block (`continue`). -/
def ofxTxn (block : List Char) : Option ParsedTransaction :=
  match findTagField true "<DTPOSTED>".toList block with
  | none => none
  | some date_str =>
    if date_str = "" then none
    else if date_str.length ≥ 8 then
      match parseYmd8 (date_str.toList.take 8) with
      | none => none
      | some date =>
        match findTagField true "<TRNAMT>".toList block with
        | none => none
        | some amount_str =>
          if amount_str = "" then none
          else
            match parse_amount amount_str with
            | none => none
            | some amount =>
              let description :=
                match findTagField true "<NAME>".toList block with
                | some n =>
                  if n ≠ "" then n
                  else
                    (match findTagField true "<MEMO>".toList block with
                     | some m => if m ≠ "" then m else "Unknown"
                     | none => "Unknown")
                | none =>
                  (match findTagField true "<MEMO>".toList block with
                   | some m => if m ≠ "" then m else "Unknown"
                   | none => "Unknown")
              some { date := date, description := description, amount := amount,
                     raw_data := some (.ofxData (String.mk block)) }
    else none

/-- Shallow embedding of `parse_ofx_statement` (lines 508-582).  It
neither reads nor writes the module-level date-format value. -/
def parse_ofx_statement (content : String) : StatementParseResult :=
  let cs := content.toList
  let blocks1 := extractBlocks1 cs.length cs
  let blocks := if blocks1.isEmpty then extractBlocks2 cs.length cs else blocks1
  if blocks.isEmpty then
    { parser_used := "ofx", errors := ["No transactions found in OFX file"] }
  else
    let bank := findTagField false "<ORG>".toList cs
    let acct := (findTagField false "<ACCTID>".toList cs).map (fun s =>
      "Account: ***" ++ String.mk (s.toList.drop (s.toList.length - 4)))
    let txns := blocks.filterMap ofxTxn
    { parser_used := "ofx", bank_detected := bank, account_info := acct,
      transactions := txns,
      errors := if txns.isEmpty then ["No valid transactions parsed from OFX"] else [] }

/-! ### PDF embedded-text parser -/

def matchDigitsN (n : Nat) (l : List Char) : Option (List Char) :=
  let t := l.take n
  if t.length = n ∧ t.all Char.isDigit then some (l.drop n) else none

def pSep (l : List Char) : Option (List Char) :=
  match l with
  | c :: rest => if c = '/' ∨ c = '-' then some rest else none
  | [] => none

/-- First alternative of the PDF date pattern (line 651): one or two
digits, a slash or dash, one or two digits, a slash or dash, two to four
digits, with the greedy/backtracking order of the regex engine; result is
the matched length. -/
def dateAlt1 (l : List Char) : Option Nat :=
  firstSome ([2, 1].map fun a =>
    match matchDigitsN a l with
    | none => none
    | some r1 =>
      match pSep r1 with
      | none => none
      | some r2 =>
        firstSome ([2, 1].map fun b =>
          match matchDigitsN b r2 with
          | none => none
          | some r3 =>
            match pSep r3 with
            | none => none
            | some r4 =>
              firstSome ([4, 3, 2].map fun y =>
                (matchDigitsN y r4).map (fun _ => a + 1 + b + 1 + y))))

/-- Second alternative: four digits, a slash or dash, one or two digits,
a slash or dash, one or two digits. -/
def dateAlt2 (l : List Char) : Option Nat :=
  match matchDigitsN 4 l with
  | none => none
  | some r1 =>
    match pSep r1 with
    | none => none
    | some r2 =>
      firstSome ([2, 1].map fun b =>
        match matchDigitsN b r2 with
        | none => none
        | some r3 =>
          match pSep r3 with
          | none => none
          | some r4 =>
            firstSome ([2, 1].map fun d =>
              (matchDigitsN d r4).map (fun _ => 4 + 1 + b + 1 + d)))

def dateMatchAt (l : List Char) : Option Nat :=
  match dateAlt1 l with
  | some n => some n
  | none => dateAlt2 l

/-- `date_pattern.search(line)`: position and length of the first date
token. -/
def searchDate : List Char → Option (Nat × Nat)
  | [] => none
  | c :: rest =>
    match dateMatchAt (c :: rest) with
    | some len => some (0, len)
    | none => (searchDate rest).map (fun p => (p.1 + 1, p.2))

def isWordChar (c : Char) : Bool := c.isAlphanum || c == '_'

/-- Attempt of the amount pattern (line 654)
`(-?\s*\$?\s*[\d,]+(?:\.\d{1,2})?)\b` at the head of `l`, with the
backtracking the trailing word boundary induces on the digit run and the
optional fraction; result is the length of the captured text. -/
def amountMatchAt (l : List Char) : Option Nat :=
  let (m, r1) : Nat × List Char := match l with
    | '-' :: r => (1, r)
    | _ => (0, l)
  let w1 := (r1.takeWhile pySpace).length
  let r2 := r1.drop w1
  let (d, r3) : Nat × List Char := match r2 with
    | '$' :: r => (1, r)
    | _ => (0, r2)
  let w2 := (r3.takeWhile pySpace).length
  let r4 := r3.drop w2
  let run := (r4.takeWhile (fun c => c.isDigit || c == ',')).length
  if run = 0 then none
  else
    firstSome ((List.range run).map (fun i =>
      let k := run - i
      let afterK := r4.drop k
      let lastDigit := (r4.take k).getLast?
      let boundary : Option Char → Option Char → Bool := fun lastC next =>
        (match lastC, next with
         | some a, some b => isWordChar a != isWordChar b
         | some a, none => isWordChar a
         | none, _ => false)
      let fracOpts : List (Option Nat) :=
        match afterK with
        | '.' :: afterDot =>
          ([2, 1].map fun j =>
            match matchDigitsN j afterDot with
            | some rest' => if boundary ((afterDot.take j).getLast?) rest'.head? then
                some (m + w1 + d + w2 + k + 1 + j) else none
            | none => none) ++
          [if boundary lastDigit afterK.head? then some (m + w1 + d + w2 + k) else none]
        | _ => [if boundary lastDigit afterK.head? then some (m + w1 + d + w2 + k) else none]
      firstSome fracOpts))

/-- `amount_pattern.findall(line)`: the captured strings of the
non-overlapping left-to-right matches. -/
def amountFindAll : Nat → List Char → List String
  | 0, _ => []
  | _, [] => []
  | fuel + 1, c :: rest =>
    match amountMatchAt (c :: rest) with
    | some len =>
      String.mk ((c :: rest).take len) :: amountFindAll fuel ((c :: rest).drop len)
    | none => amountFindAll fuel rest

def replaceFirstSub (pat : List Char) (l : List Char) : List Char :=
  match findSub pat l with
  | some i => l.take i ++ l.drop (i + pat.length)
  | none => l

/-- `re.sub(r'\s+', ' ', ...)`: every whitespace run becomes one space.
The flag records whether the previous character was whitespace. -/
def collapseAux : Bool → List Char → List Char
  | _, [] => []
  | prevSpace, c :: rest =>
    if pySpace c then
      if prevSpace then collapseAux true rest
      else ' ' :: collapseAux true rest
    else c :: collapseAux false rest

def collapseSpaces (l : List Char) : List Char := collapseAux false l

def noiseChar (c : Char) : Bool := pySpace c || c == '-' || c == '*' || c == '|'

def pdfSkipWords : List String :=
  ["date", "description", "amount", "balance", "total", "beginning", "ending",
   "statement", "period"]

def pad2 (n : Nat) : String := if n < 10 then "0" ++ toString n else toString n

def pad4 (n : Nat) : String :=
  if n < 10 then "000" ++ toString n
  else if n < 100 then "00" ++ toString n
  else if n < 1000 then "0" ++ toString n
  else toString n

/-- `date.strftime('%Y-%m-%d')`. -/
def isoDate (d : PDate) : String := pad4 d.year ++ "-" ++ pad2 d.month ++ "-" ++ pad2 d.day

/-- Python `round(x, 2)` on the exact rational value: nearest multiple of
1/100, ties to even. -/
def pyRound2 (q : ℚ) : ℚ :=
  let n := q.num * 100
  let d := (q.den : Int)
  let fl := Int.fdiv n d
  let r := n - fl * d
  let rounded :=
    if 2 * r < d then fl
    else if 2 * r > d then fl + 1
    else if fl % 2 = 0 then fl else fl + 1
  mkRat rounded 100

/-- One line of the `parse_pdf_text` scan (lines 658-725), before the
duplicate check: `none` is a skipped line.  `st` is the module-level
date-format value read by `parse_date`. -/
def pdfLineTxn (st : Option String) (line0 : String) : Option ParsedTransaction :=
  let line := pyStrip line0
  if line = "" ∨ line.length < 10 then none
  else
    match searchDate line.toList with
    | none => none
    | some (pos, len) =>
      let date_str := String.mk ((line.toList.drop pos).take len)
      match parse_date date_str none st with
      | none => none
      | some date =>
        let amts := amountFindAll line.toList.length line.toList
        if amts.isEmpty then none
        else
          let amount? := firstSome (amts.reverse.map (fun a =>
            match parse_amount a with
            | some v => if v ≠ 0 then some v else none
            | none => none))
          match amount? with
          | none => none
          | some amount =>
            let d0 := line.toList.take pos ++ line.toList.drop (pos + len)
            let d1 := amts.foldl (fun acc a => replaceFirstSub a.toList acc) d0
            let d2 := (pyStrip (String.mk (collapseSpaces d1))).toList
            let d3 := trimRightP noiseChar (d2.dropWhile noiseChar)
            let description := String.mk d3
            if description.length < 3 then none
            else if pdfSkipWords.any (fun w =>
                containsSub w.toList (description.toList.map Char.toLower)) then none
            else if containsSub "balance".toList (line.toList.map Char.toLower) then none
            else some { date := date, description := description, amount := amount,
                        confidence := mkRat 7 10 }

def pdfKey (t : ParsedTransaction) : String × String × ℚ :=
  (isoDate t.date, String.mk (t.description.toList.take 30), pyRound2 t.amount)

/-- Shallow embedding of `parse_pdf_text` (lines 635-730).  It reads the
module-level date-format value `st` and never updates it. -/
def parse_pdf_text (text : String) (st : Option String) : StatementParseResult :=
  if pyStrip text = "" then
    { parser_used := "pdf_text", errors := ["No text could be extracted from PDF"] }
  else
    let lines := (splitSep '\n' text.toList).map String.mk
    let sample := ((lines.take 10).filter (fun l => pyStrip l ≠ "")).map
      (fun l => String.mk (l.toList.take 100))
    let txns := (lines.foldl (fun acc line =>
      match pdfLineTxn st line with
      | some t =>
        let k := pdfKey t
        if acc.2.contains k then acc else (acc.1 ++ [t], acc.2 ++ [k])
      | none => acc) (([], []) : List ParsedTransaction × List (String × String × ℚ))).1
    { parser_used := "pdf_text", transactions := txns, sample_lines := some sample,
      warnings := if txns.isEmpty then
        ["No transactions could be parsed from PDF text. Sample lines: " ++
          pyReprStrList (sample.take 3)]
      else [] }

/-! ### AI-assist path -/

/-- One record of the JSON array returned by the vision model, after JSON
decoding: `parse_single_image` validates and converts each one.  The
network call and `json.loads` are external; the record list is therefore
an input here. -/
structure AiRecord where
  date : String
  description : String
  amount : ℚ
deriving DecidableEq, Repr

/-- The transaction-construction loop of `parse_single_image`
(statement_parser.py lines 888-905) applied to the decoded records:
`datetime.strptime(date, '%Y-%m-%d')` validates the date, a failing
record becomes a warning, and each accepted transaction carries
confidence 0.8. -/
def parse_ai_records (records : List AiRecord) : StatementParseResult :=
  let txns := records.filterMap (fun r =>
    match fmtYMD '-' r.date.toList with
    | some d => some ({ date := d, description := r.description, amount := r.amount,
                        confidence := mkRat 8 10 } : ParsedTransaction)
    | none => none)
  let warns := (records.filter (fun r => (fmtYMD '-' r.date.toList).isNone)).map
    (fun _ => "Could not parse AI-extracted transaction")
  { parser_used := "ai", transactions := txns,
    warnings := warns ++
      (if txns.isEmpty then ["AI could not extract any transactions from the image"] else []) }

/-! ### Recurring-pattern detector (categorizer.py) -/

/-- A transaction dict handed to `detect_recurring_pattern`: the source
reads `description` / `merchant` / `amount` / `date` with `.get`
defaults; dates are embedded as absolute day ordinals so that
`(d2 - d1).days` is plain subtraction. -/
structure RTxn where
  description : String := ""
  merchant : Option String := none
  amount : ℚ := 0
  date : Nat := 0
deriving DecidableEq, Repr

/-- Split on characters satisfying `p`, keeping empty parts. -/
def splitByP (p : Char → Bool) : List Char → List (List Char)
  | [] => [[]]
  | c :: rest =>
    let r := splitByP p rest
    if p c then [] :: r
    else
      match r with
      | h :: t => (c :: h) :: t
      | [] => [[c]]

/-- `" ".join(s.split())`: whitespace runs collapsed to single spaces,
ends trimmed. -/
def normalizeWs (l : List Char) : String :=
  String.intercalate " " (((splitByP pySpace l).filter (· ≠ [])).map String.mk)

/-- The canonical grouping key (categorizer.py lines 131-141): lower-cased
merchant and description joined, digits and `#*-_` stripped, whitespace
normalised. -/
def subKey (t : RTxn) : String :=
  let m := match t.merchant with
    | some ms => if ms = "" then "" else String.mk (ms.toList.map Char.toLower)
    | none => ""
  let d := String.mk (t.description.toList.map Char.toLower)
  let cleaned := (m ++ " " ++ d).toList.filter
    (fun c => !(c.isDigit || c == '#' || c == '*' || c == '-' || c == '_'))
  normalizeWs (stripL cleaned)

def addToGroups (gs : List (String × List RTxn)) (k : String) (t : RTxn) :
    List (String × List RTxn) :=
  match gs with
  | [] => [(k, [t])]
  | (k0, ts) :: rest =>
    if k0 = k then (k0, ts ++ [t]) :: rest else (k0, ts) :: addToGroups rest k t

/-- `groups = defaultdict(list)` filled in transaction order; dict
iteration order is key-insertion order. -/
def buildGroups (txns : List RTxn) : List (String × List RTxn) :=
  txns.foldl (fun gs t =>
    let k := subKey t
    if k.length ≥ 3 then addToGroups gs k t else gs) []

def qSum (l : List ℚ) : ℚ := l.foldl qAdd 0

def qMaxL : List ℚ → ℚ
  | [] => 0
  | x :: rest => rest.foldl (fun a b => if a < b then b else a) x

def qMinL : List ℚ → ℚ
  | [] => 0
  | x :: rest => rest.foldl (fun a b => if b < a then b else a) x

def insertNatSorted (x : Nat) : List Nat → List Nat
  | [] => [x]
  | y :: r => if x < y then x :: y :: r else y :: insertNatSorted x r

def sortNats (l : List Nat) : List Nat := l.foldl (fun acc x => insertNatSorted x acc) []

/-- The frequency classification chain (categorizer.py lines 173-183). -/
def classifyFrequency (avg_interval : ℚ) : String :=
  if 25 ≤ avg_interval ∧ avg_interval ≤ 35 then "monthly"
  else if 350 ≤ avg_interval ∧ avg_interval ≤ 380 then "yearly"
  else if 12 ≤ avg_interval ∧ avg_interval ≤ 16 then "biweekly"
  else if 6 ≤ avg_interval ∧ avg_interval ≤ 8 then "weekly"
  else "irregular"

structure SubscriptionCandidate where
  name : String
  amount : ℚ
  frequency : String
  occurrences : Nat
  last_date : Option Nat
  sample_description : String
deriving DecidableEq, Repr

/-- `max(txns, key=lambda t: t.get("date", 0))`: Python `max` keeps the
first maximal element. -/
def pickLatest : List RTxn → Option RTxn
  | [] => none
  | t :: rest => some (rest.foldl (fun best x => if x.date > best.date then x else best) t)

/-- One group of the detector loop (categorizer.py lines 145-196):
`none` when the group is filtered out. -/
def processGroup (min_occurrences : Nat) (amount_tolerance : ℚ)
    (txns : List RTxn) : Option SubscriptionCandidate :=
  if txns.length < min_occurrences then none
  else
    let amounts := txns.map (fun t => pyAbs t.amount)
    let avg_amount := qDiv (qSum amounts) (mkRat amounts.length 1)
    if avg_amount = 0 then none
    else
      let amount_variance := qSub (qMaxL amounts) (qMinL amounts)
      if amount_tolerance < qDiv amount_variance avg_amount then none
      else
        let dates := sortNats (txns.map (fun t => t.date))
        if dates.length < 2 then none
        else
          let intervals := (dates.zip (dates.drop 1)).map (fun p => p.2 - p.1)
          let avg_interval := qDiv (mkRat (intervals.foldl (· + ·) 0) 1) (mkRat intervals.length 1)
          let frequency := classifyFrequency avg_interval
          if frequency = "irregular" then none
          else
            match pickLatest txns with
            | none => none
            | some latest =>
              let name := match latest.merchant with
                | some m => if m ≠ "" then m else String.mk (latest.description.toList.take 50)
                | none => String.mk (latest.description.toList.take 50)
              some { name := name, amount := pyRound2 avg_amount, frequency := frequency,
                     occurrences := txns.length, last_date := dates.getLast?,
                     sample_description := latest.description }

/-- Stable insertion for the final descending sort by amount. -/
def insertDescAmount (x : SubscriptionCandidate) :
    List SubscriptionCandidate → List SubscriptionCandidate
  | [] => [x]
  | y :: rest =>
    if y.amount < x.amount then x :: y :: rest else y :: insertDescAmount x rest

def sortByAmountDesc (l : List SubscriptionCandidate) : List SubscriptionCandidate :=
  l.foldl (fun acc x => insertDescAmount x acc) []

/-- Shallow embedding of `detect_recurring_pattern`
(categorizer.py lines 109-201). -/
def detect_recurring_pattern (transactions : List RTxn)
    (min_occurrences : Nat := 2) (amount_tolerance : ℚ := mkRat 1 10) :
    List SubscriptionCandidate :=
  sortByAmountDesc ((buildGroups transactions).filterMap
    (fun g => processGroup min_occurrences amount_tolerance g.2))

/-! ### Format detection and orchestration -/

/-- UTF-8 decoding with `errors="ignore"`, modelled on the ASCII subset:
bytes above 0x7F are dropped (a multi-byte sequence would decode to a
non-ASCII character, which the markup-token sniff below can never match,
so the classification outcome agrees). -/
def decodeAsciiIgnore (bs : List Nat) : List Char :=
  bs.filterMap (fun b => if b < 128 then some (Char.ofNat b) else none)

def strEndsWith (s suffix : String) : Bool :=
  suffix.toList.isSuffixOf s.toList

/-- Shallow embedding of `detect_file_type` (lines 917-953): extension
first, then magic bytes, then the OFX sniff, default CSV. -/
def detect_file_type (filename : String) (content : List Nat) : String :=
  let fl := lowerStr filename
  if strEndsWith fl ".csv" then "text/csv"
  else if strEndsWith fl ".ofx" then "application/x-ofx"
  else if strEndsWith fl ".qfx" then "application/x-qfx"
  else if strEndsWith fl ".pdf" then "application/pdf"
  else if strEndsWith fl ".png" ∨ strEndsWith fl ".jpg" ∨ strEndsWith fl ".jpeg" ∨
      strEndsWith fl ".gif" ∨ strEndsWith fl ".webp" then
    (if strEndsWith fl ".png" then "image/png"
     else if strEndsWith fl ".gif" then "image/gif"
     else if strEndsWith fl ".webp" then "image/webp"
     else "image/jpeg")
  else if content.take 4 = [0x25, 0x50, 0x44, 0x46] then "application/pdf"
  else if content.take 8 = [0x89, 0x50, 0x4E, 0x47, 0x0D, 0x0A, 0x1A, 0x0A] then "image/png"
  else if content.take 2 = [0xFF, 0xD8] then "image/jpeg"
  else
    let up := upperL (decodeAsciiIgnore (content.take 1000))
    if containsSub "<OFX>".toList up ∨ containsSub "OFXHEADER".toList up then
      "application/x-ofx"
    else "text/csv"

/-- The dispatch structure of `parse_statement` (lines 956-1000): which
parser branch a detected label reaches. -/
inductive OrchBranch where
  | csvBranch
  | ofxBranch
  | pdfBranch
  | imageBranch
  | unsupportedBranch
deriving DecidableEq, Repr

def dispatchBranch (file_type : String) : OrchBranch :=
  if file_type = "text/csv" then .csvBranch
  else if file_type = "application/x-ofx" ∨ file_type = "application/x-qfx" then .ofxBranch
  else if file_type = "application/pdf" then .pdfBranch
  else if file_type = "image/png" ∨ file_type = "image/jpeg" ∨
      file_type = "image/gif" ∨ file_type = "image/webp" then .imageBranch
  else .unsupportedBranch

/-- The recognised format labels. -/
def formatLabels : List String :=
  ["text/csv", "application/x-ofx", "application/x-qfx", "application/pdf",
   "image/png", "image/jpeg", "image/gif", "image/webp"]

/-- One non-AI parse of the engine, for stating properties about
sequences of parses: the delimited path, the markup path, and the
embedded-text document path applied to already-extracted text. -/
inductive ParseJob where
  | csv (content : String)
  | ofx (content : String)
  | pdfText (text : String)

/-- Run one job against the module-level date-format state: the delimited
path reads and writes it, the markup path ignores it, the embedded-text
path reads it. -/
def runJob : ParseJob → Option String → StatementParseResult × Option String
  | .csv c, st => parse_csv_statement c st
  | .ofx c, st => (parse_ofx_statement c, st)
  | .pdfText t, st => (parse_pdf_text t st, st)

/-! ### Abstract decimal tokens, for the amount sign-convention property -/

/-- The digit character `0`+i. -/
def digitChar (i : Fin 10) : Char := Char.ofNat (48 + i.val)

def digitsStr (ds : List (Fin 10)) : List Char := ds.map digitChar

/-- A plain decimal numeral `ds.fs`, e.g. `100.00`. -/
def decToken (ds fs : List (Fin 10)) : List Char :=
  digitsStr ds ++ '.' :: digitsStr fs

def digitsVal (ds : List (Fin 10)) : Nat :=
  ds.foldl (fun acc i => acc * 10 + i.val) 0

/-- The rational value of the numeral `ds.fs`. -/
def decValue (ds fs : List (Fin 10)) : ℚ :=
  mkRat (digitsVal ds * 10 ^ fs.length + digitsVal fs) (10 ^ fs.length)

/-! ### Concrete columns for the column-inference property -/

/-- Column pools for the headerless-file scenario: ID, Date, Memo, Amount
(with both signs present) and an all-positive Balance decoy. -/
def c3Cols : Nat → List String
  | 0 => ["1001", "1002", "1003", "1004"]
  | 1 => ["15/01/2024", "16/01/2024", "17/01/2024", "18/01/2024"]
  | 2 => ["COFFEE SHOP", "PAYROLL DEPOSIT", "GROCERY STORE", "ONLINE TRANSFER"]
  | 3 => ["-4.50", "2500.00", "-12.00", "-30.25"]
  | _ => ["1000.00", "3500.00", "3488.00", "3457.75"]

/-- The four data rows with the five columns arranged by `perm`. -/
def c3Rows (perm : List Nat) : List (List String) :=
  (List.range 4).map (fun r => perm.map (fun c => (c3Cols c).getD r ""))

def insertEverywhere (x : Nat) : List Nat → List (List Nat)
  | [] => [[x]]
  | y :: rest => (x :: y :: rest) :: (insertEverywhere x rest).map (y :: ·)

/-- All permutations of a list (kernel-computable). -/
def allPerms : List Nat → List (List Nat)
  | [] => [[]]
  | x :: rest => (allPerms rest).bind (insertEverywhere x)

/-- Statistical inference on the permuted file finds the Date column as
date, the Amount column as amount and the Memo column as description. -/
def c3Check (perm : List Nat) : Bool :=
  let det := auto_detect_csv_columns none (c3Rows perm)
  (det.date == perm.indexOf? 1) && (det.amount == perm.indexOf? 3) &&
    (det.description == perm.indexOf? 2)

/-! ## Theorems -/

/-- C4: four transactions with description "NETFLIX.COM" and amount −15.99
dated the 1st of four consecutive months (day ordinals 1, 32, 61, 92 of a
leap year, so the consecutive day-deltas are 31, 29, 31) yield exactly one
SubscriptionCandidate, with average amount 15.99, frequency "monthly" and
occurrence count 4.  The frequency classification averages the consecutive
day-deltas of the sorted dates and labels 6-8 weekly, 12-16 biweekly,
25-35 monthly, 350-380 yearly, anything else irregular, and an irregular
group (here two transactions 100 days apart) is discarded. -/
theorem claim_C4_recurring_netflix :
    (detect_recurring_pattern
        [⟨"NETFLIX.COM", none, -(mkRat 1599 100), 1⟩,
         ⟨"NETFLIX.COM", none, -(mkRat 1599 100), 32⟩,
         ⟨"NETFLIX.COM", none, -(mkRat 1599 100), 61⟩,
         ⟨"NETFLIX.COM", none, -(mkRat 1599 100), 92⟩] 2 (mkRat 1 10) =
      [{ name := "NETFLIX.COM", amount := mkRat 1599 100, frequency := "monthly",
         occurrences := 4, last_date := some 92, sample_description := "NETFLIX.COM" }] ∧
     (classifyFrequency 6 = "weekly" ∧ classifyFrequency 8 = "weekly" ∧
      classifyFrequency 5 = "irregular" ∧ classifyFrequency 9 = "irregular" ∧
      classifyFrequency 12 = "biweekly" ∧ classifyFrequency 16 = "biweekly" ∧
      classifyFrequency 11 = "irregular" ∧ classifyFrequency 17 = "irregular" ∧
      classifyFrequency 25 = "monthly" ∧ classifyFrequency 35 = "monthly" ∧
      classifyFrequency 24 = "irregular" ∧ classifyFrequency 36 = "irregular" ∧
      classifyFrequency 350 = "yearly" ∧ classifyFrequency 380 = "yearly" ∧
      classifyFrequency 349 = "irregular" ∧ classifyFrequency 381 = "irregular" ∧
      classifyFrequency (qDiv 91 3) = "monthly") ∧
     detect_recurring_pattern
        [⟨"GYM MEMBERSHIP", none, -50, 1⟩, ⟨"GYM MEMBERSHIP", none, -50, 101⟩]
        2 (mkRat 1 10) = []) ∧
    mkRat 1599 100 = 15.99 :=
  ⟨by decide, by norm_num [Rat.mkRat_eq_div]⟩

/-- C5 counterexample: a transaction produced by the AI-assist record loop
carries confidence 0.8 while a transaction produced by the structural
embedded-text line scan of the document parser carries confidence 0.7, so
the AI-assist confidence is NOT strictly lower than that structural
parser's confidence, refuting the claim as stated. -/
theorem claim_C5_counterexample :
    (parse_ai_records [⟨"2024-01-15", "PAYROLL DEPOSIT", 2500⟩]).transactions.map
        (fun t => t.confidence) = [mkRat 8 10] ∧
    (parse_pdf_text "02/03/2024 STORE PURCHASE 45.00" none).transactions.map
        (fun t => t.confidence) = [mkRat 7 10] ∧
    ¬ (mkRat 8 10 < mkRat 7 10) := by
  decide

/-- C5 amended: AI-assist transactions carry confidence 0.8, strictly
lower than the confidence 1.0 of transactions from the delimited and
markup structural parsers, but strictly HIGHER than the confidence 0.7 of
transactions from the embedded-text line-scan pass of the document
parser. -/
theorem claim_C5_amended :
    (parse_ai_records [⟨"2024-01-15", "PAYROLL DEPOSIT", 2500⟩]).transactions.map
        (fun t => t.confidence) = [mkRat 8 10] ∧
    (parse_pdf_text "02/03/2024 STORE PURCHASE 45.00" none).transactions.map
        (fun t => t.confidence) = [mkRat 7 10] ∧
    (csvResult "Date,Description,Amount\n2024-01-15,Coffee Shop,-4.50\n2024-01-16,Paycheck,2500.00"
        none).transactions.map (fun t => t.confidence) = [1, 1] ∧
    (parse_ofx_statement
        "<STMTTRN><DTPOSTED>20240115<TRNAMT>-45.99<NAME>AMAZON</STMTTRN>").transactions.map
        (fun t => t.confidence) = [1] ∧
    mkRat 8 10 < 1 ∧ mkRat 7 10 < mkRat 8 10 := by
  decide

/-- C8: the engine does hold process-global mutable state.  Parsing a
delimited file containing the month-first date "01/13/2024" leaves the
module-level date-format value at "MDY"; an embedded-text line scan of
"02/03/2024 STORE PURCHASE 45.00" run after it resolves the date as
February 3, while the same scan run on a fresh state resolves it as
March 2, so the same input yields different ParseResults depending on
what was parsed earlier — the failing input for the claim. -/
theorem claim_C8_global_state_interference :
    csvState "Date,Description,Amount\n01/13/2024,Rent,-500.00\n" none = some "MDY" ∧
    ((runJob (.pdfText "02/03/2024 STORE PURCHASE 45.00")
        (runJob (.csv "Date,Description,Amount\n01/13/2024,Rent,-500.00\n") none).2).1.transactions.map
        (fun t => t.date) = [⟨2024, 2, 3⟩]) ∧
    ((runJob (.pdfText "02/03/2024 STORE PURCHASE 45.00") none).1.transactions.map
        (fun t => t.date) = [⟨2024, 3, 2⟩]) ∧
    (runJob (.pdfText "02/03/2024 STORE PURCHASE 45.00")
        (runJob (.csv "Date,Description,Amount\n01/13/2024,Rent,-500.00\n") none).2).1 ≠
      (runJob (.pdfText "02/03/2024 STORE PURCHASE 45.00") none).1 := by
  decide

/-- C2 counterexample: in a document whose sampled date tokens contain
"13/01/2024" the detected hint is day-first, and under that hint the
ambiguous "02/03/2024" resolves to March 2 (day 02, month 03) — not to
February 3 as the claim states. -/
theorem claim_C2_counterexample :
    detect_date_format ["13/01/2024", "02/03/2024"] = "DMY" ∧
    parse_date "02/03/2024" none
        (some (detect_date_format ["13/01/2024", "02/03/2024"])) = some ⟨2024, 3, 2⟩ ∧
    (⟨2024, 3, 2⟩ : PDate) ≠ ⟨2024, 2, 3⟩ := by
  decide

/-- C2 amended: whenever the sampled tokens make the detector return the
day-first hint — in particular when a token like "13/01/2024" with first
component exceeding 12 is encountered before any token whose second
component exceeds 12 — every ambiguous two-component slash date d/m/2024
with both components at most 12 resolves day-first, i.e. to day d of month
m; in particular "02/03/2024" resolves to March 2, not February 3.  When
no sample disambiguates (or there are no samples) the default hint is
day-first. -/
theorem claim_C2_amended :
    (∀ ds : List String, detect_date_format ds = "DMY" →
      ∀ d m : Nat, 1 ≤ d → d ≤ 12 → 1 ≤ m → m ≤ 12 →
        parse_date (toString d ++ "/" ++ toString m ++ "/2024") none
          (some (detect_date_format ds)) = some ⟨2024, m, d⟩) ∧
    detect_date_format ["13/01/2024"] = "DMY" ∧
    detect_date_format ["01/02/2024", "05/06/2024"] = "DMY" ∧
    detect_date_format [] = "DMY" ∧
    parse_date "02/03/2024" none (some "DMY") = some ⟨2024, 3, 2⟩ := by
  refine ⟨?_, by decide, by decide, by decide, by decide⟩
  intro ds h d m h1 h2 h3 h4
  rw [h]
  interval_cases d <;> interval_cases m <;> decide

/-- C2 amended, witness: in a document sampled with "13/01/2024" the
token "2/3/2024" resolves to March 2. -/
theorem claim_C2_amended_witness :
    parse_date (toString 2 ++ "/" ++ toString 3 ++ "/2024") none
      (some (detect_date_format ["13/01/2024"])) = some ⟨2024, 3, 2⟩ :=
  claim_C2_amended.1 ["13/01/2024"] (by decide) 2 3 (by decide) (by decide)
    (by decide) (by decide)

/-- C10: for every filename string and byte content the Format Detector
totally returns one of the eight recognised labels (delimited text, the
two markup variants, portable-document, or one of four raster-image
labels), defaulting to delimited text; and every one of those labels is
handled by a parser branch of the orchestrator dispatch, so the
"Unsupported file type" branch is unreachable for detected labels. -/
theorem claim_C10_format_detector_total :
    (∀ (filename : String) (content : List Nat),
      formatLabels.contains (detect_file_type filename content) = true) ∧
    (formatLabels.map dispatchBranch).all
      (fun b => b != OrchBranch.unsupportedBranch) = true := by
  refine ⟨?_, by decide⟩
  intro fn c
  unfold detect_file_type
  dsimp only
  split_ifs <;> decide

/-- C7 counterexample: in a delimited file with one well-formed data row
and one data row whose date fails to resolve, the bad row is skipped and
parsing continues (one transaction, no error), but the skipped row
contributes NO warning — the warnings list is empty, refuting the claim
that each skipped row contributes a non-fatal warning. -/
theorem claim_C7_counterexample :
    (csvResult "Date,Description,Amount\n2024-01-15,Coffee,-4.50\nbaddate,Snack,-2.00\n"
        none).transactions.length = 1 ∧
    (csvResult "Date,Description,Amount\n2024-01-15,Coffee,-4.50\nbaddate,Snack,-2.00\n"
        none).warnings = [] ∧
    (csvResult "Date,Description,Amount\n2024-01-15,Coffee,-4.50\nbaddate,Snack,-2.00\n"
        none).errors = [] := by
  decide

/-- C7 amended: in the delimited-text parser every data row whose date,
description, or amount fails to resolve, or whose amount resolves to
zero, is skipped without aborting the parse — the remaining rows are
processed exactly as if the bad row were absent — but a skipped row
contributes no warning; concretely, the two-row file with one bad date
yields one transaction and an empty warnings list. -/
theorem claim_C7_amended :
    (∀ (st : Option String) (c : CsvCols) (n : Nat) (row : List String)
        (rest : List (List String)),
      (rowDate st c row = none ∨ rowDesc c row = "" ∨ rowAmount c row = none ∨
        rowAmount c row = some 0) →
      processRows st c n (row :: rest) = processRows st c (n + 1) rest) ∧
    (csvResult "Date,Description,Amount\n2024-01-15,Coffee,-4.50\nbaddate,Snack,-2.00\n"
        none).transactions.length = 1 ∧
    (csvResult "Date,Description,Amount\n2024-01-15,Coffee,-4.50\nbaddate,Snack,-2.00\n"
        none).warnings = [] := by
  refine ⟨?_, by decide, by decide⟩
  intro st c n row rest h
  have hnone : parseRow st c n row = none := by
    unfold parseRow
    split
    · rfl
    · cases hd : rowDate st c row with
      | none => simp
      | some d =>
        rcases h with h | h | h | h
        · rw [hd] at h; exact absurd h (by simp)
        · simp [h]
        · simp [h]
        · simp [h]
  conv_lhs => rw [processRows]
  rw [hnone]

/-- C7 amended, witness: a row with an unresolvable date is dropped and
processing of the (empty) remainder proceeds as if it were absent. -/
theorem claim_C7_amended_witness :
    processRows none ⟨0, 1, some 2, none, none⟩ 5 [["baddate", "x", "5.00"]] =
      processRows none ⟨0, 1, some 2, none, none⟩ 6 [] :=
  claim_C7_amended.1 none ⟨0, 1, some 2, none, none⟩ 5 ["baddate", "x", "5.00"] []
    (Or.inl (by decide))

/-- C6: for every input to the delimited-text parser (any incoming
date-format state) and to the markup parser, the returned ParseResult has
a non-empty errors list exactly when its transactions list is empty; the
structural failure branches build the result object and the embedding has
no other exit, so nothing is thrown across the module boundary. -/
theorem claim_C6_failure_signal :
    ∀ (content : String) (st : Option String),
      ((csvResult content st).errors ≠ [] ↔ (csvResult content st).transactions = []) ∧
      ((parse_ofx_statement content).errors ≠ [] ↔
        (parse_ofx_statement content).transactions = []) := by
  intro content st
  constructor
  · simp only [csvResult]
    split
    · simp
    · split
      · simp
      · split
        · simp
        · split
          · simp
          · split <;> simp_all [List.isEmpty_iff]
  · simp only [parse_ofx_statement]
    repeat' split
    all_goals simp_all [List.isEmpty_iff, List.filterMap_eq_nil]

theorem firstSome_isSome {α : Type} (l : List (Option α)) :
    (firstSome l).isSome = l.any Option.isSome := by
  induction l with
  | nil => rfl
  | cons h t ih => cases h <;> simp [firstSome, ih]

theorem formatsFor_any (h1 h2 : String) (q : (List Char → Option PDate) → Bool) :
    (formatsFor h1).any q = (formatsFor h2).any q := by
  unfold formatsFor
  split_ifs <;>
    simp [List.any_append, Bool.or_comm, Bool.or_left_comm, Bool.or_assoc]

theorem any_map_general {α β : Type} (l : List α) (f : α → β) (p : β → Bool) :
    (l.map f).any p = l.any (fun a => p (f a)) := by
  induction l <;> simp_all

/-- Whether `parse_date` succeeds does not depend on the module-level
date-format value: the hint only reorders the same set of formats. -/
theorem parse_date_isSome_congr (s : String) (fh st st' : Option String) :
    (parse_date s fh st).isSome = (parse_date s fh st').isSome := by
  by_cases h : stripL s.data = []
  · simp [parse_date, h]
  · have e : ∀ stx : Option String, parse_date s fh stx =
        firstSome ((formatsFor (resolveHint fh stx)).map (fun f => f (stripL s.data))) := by
      intro stx
      simp [parse_date, List.isEmpty_iff, h]
    rw [e st, e st', firstSome_isSome, firstSome_isSome, any_map_general, any_map_general]
    exact formatsFor_any _ _ _

theorem looksLikeDataCell_congr (st st' : Option String) :
    looksLikeDataCell st = looksLikeDataCell st' := by
  funext cell
  unfold looksLikeDataCell
  rw [parse_date_isSome_congr cell none st st']

theorem firstRowIsData_congr (st st' : Option String) :
    firstRowIsData st = firstRowIsData st' := by
  funext row
  unfold firstRowIsData
  rw [looksLikeDataCell_congr st st']

theorem analyzeCell_congr (st st' : Option String) :
    analyzeCell st = analyzeCell st' := by
  funext stats cell0
  simp only [analyzeCell]
  rw [parse_date_isSome_congr (pyStrip cell0) none st st']

theorem auto_detect_congr (st st' : Option String) :
    auto_detect_csv_columns st = auto_detect_csv_columns st' := by
  funext rows
  unfold auto_detect_csv_columns colStats
  rw [analyzeCell_congr st st']

/-- The result of the delimited parser does not depend on the incoming
module-level date-format value: before `set_date_format_hint` overwrites
it from this file's own rows, the state is only read through
success-or-not date checks, which are order-independent. -/
theorem csvSetup_congr (content : String) (st st' : Option String) :
    csvSetup content st = csvSetup content st' := by
  unfold csvSetup
  rw [firstRowIsData_congr st st', auto_detect_congr st st']

theorem csvResult_congr (content : String) (st st' : Option String) :
    csvResult content st = csvResult content st' := by
  unfold csvResult
  rw [csvSetup_congr content st st']

/-- C9: parsing identical content twice in sequence (delimited, markup,
or embedded-text document path) yields an identical ParseResult both
times, from any starting date-format state: the second parse starts from
whatever state the first left behind, but the delimited parser's result
does not depend on the incoming state (it recomputes the hint from its
own rows before using it) and the markup and embedded-text parsers never
change the state. -/
theorem claim_C9_repeat_parse_identical :
    ∀ (j : ParseJob) (st : Option String),
      (runJob j ((runJob j st).2)).1 = (runJob j st).1 := by
  intro j st
  cases j with
  | csv c =>
    simp only [runJob, parse_csv_statement]
    exact csvResult_congr c _ st
  | ofx c => rfl
  | pdfText t => rfl

theorem keyGT_irrefl (a : Bool × Bool × Nat) : keyGT a a = false := by
  rcases a with ⟨a1, a2, a3⟩
  simp [keyGT]

theorem keyGT_trans_not (x b r : Bool × Bool × Nat) (h1 : keyGT x b = false)
    (h2 : keyGT r b = true) : keyGT x r = false := by
  rcases x with ⟨x1, x2, x3⟩
  rcases b with ⟨b1, b2, b3⟩
  rcases r with ⟨r1, r2, r3⟩
  cases x1 <;> cases b1 <;> cases r1 <;> cases x2 <;> cases b2 <;> cases r2 <;>
    simp_all [keyGT] <;> omega

theorem pickFoldl_preserves (l : List (Nat × ColStats)) :
    ∀ (a r : Nat × ColStats) (x : Bool × Bool × Nat),
      l.foldl pickStep (some a) = some r → keyGT x (amountKey a.2) = false →
      keyGT x (amountKey r.2) = false := by
  induction l with
  | nil =>
    intro a r x h hx
    simp only [List.foldl_nil, Option.some.injEq] at h
    exact h ▸ hx
  | cons p rest ih =>
    intro a r x h hx
    simp only [List.foldl_cons] at h
    by_cases hk : keyGT (amountKey p.2) (amountKey a.2) = true
    · rw [show pickStep (some a) p = some p by simp [pickStep, hk]] at h
      exact ih p r x h (keyGT_trans_not _ _ _ hx hk)
    · rw [show pickStep (some a) p = some a by simp [pickStep, hk]] at h
      exact ih a r x h hx

theorem pickFoldl_max (l : List (Nat × ColStats)) :
    ∀ (acc : Option (Nat × ColStats)) (r : Nat × ColStats),
      l.foldl pickStep acc = some r →
      ∀ q ∈ l, keyGT (amountKey q.2) (amountKey r.2) = false := by
  induction l with
  | nil =>
    intro acc r h q hq
    simp at hq
  | cons p rest ih =>
    intro acc r h q hq
    simp only [List.foldl_cons] at h
    rcases List.mem_cons.mp hq with rfl | hq'
    · cases acc with
      | none =>
        exact pickFoldl_preserves rest q r _ h (keyGT_irrefl _)
      | some a =>
        by_cases hk : keyGT (amountKey q.2) (amountKey a.2) = true
        · rw [show pickStep (some a) q = some q by simp [pickStep, hk]] at h
          exact pickFoldl_preserves rest q r _ h (keyGT_irrefl _)
        · rw [show pickStep (some a) q = some a by simp [pickStep, hk]] at h
          exact pickFoldl_preserves rest a r _ h (by simpa using hk)
    · exact ih _ r h q hq'

theorem pickFoldl_mem (l : List (Nat × ColStats)) :
    ∀ (acc : Option (Nat × ColStats)) (r : Nat × ColStats),
      l.foldl pickStep acc = some r → acc = some r ∨ r ∈ l := by
  induction l with
  | nil =>
    intro acc r h
    exact Or.inl h
  | cons p rest ih =>
    intro acc r h
    simp only [List.foldl_cons] at h
    rcases ih _ r h with h' | h'
    · cases acc with
      | none =>
        simp only [pickStep, Option.some.injEq] at h'
        exact Or.inr (h' ▸ List.mem_cons_self p rest)
      | some a =>
        by_cases hk : keyGT (amountKey p.2) (amountKey a.2) = true
        · rw [show pickStep (some a) p = some p by simp [pickStep, hk]] at h'
          cases h'
          exact Or.inr (List.mem_cons_self p rest)
        · rw [show pickStep (some a) p = some a by simp [pickStep, hk]] at h'
          exact Or.inl h'
    · exact Or.inr (List.mem_cons_of_mem p h')

/-- C3: statistical column inference never selects an all-positive column
(no negative value seen, like a running balance) as the amount column when
some column with both signs and a positive amount count is in range; and
on the concrete headerless file with columns [ID, Date, Memo, Amount] plus
an all-positive Balance column, in every one of the 120 column orders,
inference selects the Date column as date, the Amount column as amount
and the Memo column as description. -/
theorem claim_C3_column_inference :
    (∀ (st : Option String) (rows : List (List String)) (i j : Nat),
      2 ≤ rows.length →
      i < (rows.map List.length).foldl max 0 →
      0 < (colStats st rows i).amount_count →
      (colStats st rows i).has_negative = true →
      (colStats st rows i).has_positive = true →
      (colStats st rows j).has_negative = false →
      (auto_detect_csv_columns st rows).amount ≠ some j) ∧
    (allPerms [0, 1, 2, 3, 4]).all c3Check = true := by
  refine ⟨?_, by decide⟩
  intro st rows i j h2 hi hcnt hneg hpos hjneg hcontra
  have hnot : ¬ rows.length < 2 := by omega
  simp only [auto_detect_csv_columns, if_neg hnot, pickFirstMaxAmt] at hcontra
  rw [Option.map_eq_some'] at hcontra
  obtain ⟨r, hfold, hr1⟩ := hcontra
  have hmem : r ∈ (List.filter (fun p => decide (p.2.amount_count > 0))
      ((List.range ((rows.map List.length).foldl max 0)).map
        (fun k => (k, colStats st rows k)))) := by
    rcases pickFoldl_mem _ none r hfold with h' | h'
    · exact absurd h' (by simp)
    · exact h'
  have hishape : (i, colStats st rows i) ∈ (List.filter (fun p => decide (p.2.amount_count > 0))
      ((List.range ((rows.map List.length).foldl max 0)).map
        (fun k => (k, colStats st rows k)))) := by
    rw [List.mem_filter]
    refine ⟨List.mem_map.mpr ⟨i, List.mem_range.mpr hi, rfl⟩, by simpa using hcnt⟩
  have hmax := pickFoldl_max _ none r hfold _ hishape
  have hr2 : r.2 = colStats st rows j := by
    rcases List.mem_filter.mp hmem with ⟨hmap, _⟩
    rcases List.mem_map.mp hmap with ⟨k, _, hk⟩
    subst hk
    dsimp only at hr1 ⊢
    rw [hr1]
  rw [hr2] at hmax
  simp [amountKey, keyGT, hneg, hpos, hjneg] at hmax

/-- C3 witness: on the identity arrangement of the concrete file — where
column 3 is the mixed-sign Amount column and column 4 the all-positive
Balance column — inference does not select the Balance column. -/
theorem claim_C3_witness :
    (auto_detect_csv_columns none (c3Rows [0, 1, 2, 3, 4])).amount ≠ some 4 :=
  claim_C3_column_inference.1 none (c3Rows [0, 1, 2, 3, 4]) 3 4 (by decide)
    (by decide) (by decide) (by decide) (by decide) (by decide)

/-! ### Character-level facts for the amount sign conventions -/

theorem digitChar_clean : ∀ i : Fin 10,
    pySpace (digitChar i) = false ∧ digitChar i ≠ '-' ∧ digitChar i ≠ '+' ∧
    digitChar i ≠ '$' ∧ digitChar i ≠ ',' ∧ digitChar i ≠ ' ' ∧ digitChar i ≠ '(' ∧
    currencySymbols.contains (digitChar i) = false ∧
    Char.toUpper (digitChar i) ≠ 'R' ∧ (digitChar i).isDigit = true := by
  decide

theorem dot_clean :
    pySpace '.' = false ∧ '.' ≠ '-' ∧ '.' ≠ '+' ∧ '.' ≠ '$' ∧ '.' ≠ ',' ∧
    '.' ≠ ' ' ∧ '.' ≠ '(' ∧ currencySymbols.contains '.' = false ∧
    Char.toUpper '.' ≠ 'R' ∧ ('.' = '.') := by
  decide

theorem mem_decToken {ds fs : List (Fin 10)} {c : Char} (h : c ∈ decToken ds fs) :
    (∃ i, c = digitChar i) ∨ c = '.' := by
  unfold decToken digitsStr at h
  rw [List.mem_append] at h
  rcases h with h | h
  · rcases List.mem_map.mp h with ⟨i, _, rfl⟩
    exact Or.inl ⟨i, rfl⟩
  · rcases List.mem_cons.mp h with rfl | h
    · exact Or.inr rfl
    · rcases List.mem_map.mp h with ⟨i, _, rfl⟩
      exact Or.inl ⟨i, rfl⟩

theorem decToken_char {ds fs : List (Fin 10)} {c : Char} (h : c ∈ decToken ds fs) :
    pySpace c = false ∧ c ≠ '-' ∧ c ≠ '+' ∧ c ≠ '$' ∧ c ≠ ',' ∧ c ≠ ' ' ∧
    c ≠ '(' ∧ currencySymbols.contains c = false ∧ Char.toUpper c ≠ 'R' := by
  rcases mem_decToken h with ⟨i, rfl⟩ | rfl
  · have hp := digitChar_clean i
    exact ⟨hp.1, hp.2.1, hp.2.2.1, hp.2.2.2.1, hp.2.2.2.2.1, hp.2.2.2.2.2.1,
      hp.2.2.2.2.2.2.1, hp.2.2.2.2.2.2.2.1, hp.2.2.2.2.2.2.2.2.1⟩
  · have hp := dot_clean
    exact ⟨hp.1, hp.2.1, hp.2.2.1, hp.2.2.2.1, hp.2.2.2.2.1, hp.2.2.2.2.2.1,
      hp.2.2.2.2.2.2.1, hp.2.2.2.2.2.2.2.1, hp.2.2.2.2.2.2.2.2.1⟩

theorem mem_of_getLast?_eq {l : List Char} {c : Char} (h : l.getLast? = some c) :
    c ∈ l := by
  have h1 : l.reverse.head? = some c := by rw [List.head?_reverse]; exact h
  have h2 : c ∈ l.reverse := List.mem_of_mem_head? (by simp [h1])
  simpa using h2

theorem stripL_ends (l : List Char)
    (h1 : ∀ c, l.head? = some c → pySpace c = false)
    (h2 : ∀ c, l.getLast? = some c → pySpace c = false) : stripL l = l := by
  cases l with
  | nil => rfl
  | cons x xs =>
    unfold stripL trimRightP
    rw [List.dropWhile_cons, if_neg (by simp [h1 x rfl])]
    cases hrev : (x :: xs).reverse with
    | nil => exact absurd hrev (by simp)
    | cons y ys =>
      have hy : pySpace y = false := h2 y (by rw [← List.head?_reverse, hrev]; rfl)
      rw [List.dropWhile_cons, if_neg (by simp [hy]), ← hrev, List.reverse_reverse]

theorem decToken_ne_nil (ds fs : List (Fin 10)) : decToken ds fs ≠ [] := by
  unfold decToken
  simp

theorem decToken_cons (d0 : Fin 10) (ds' fs : List (Fin 10)) :
    decToken (d0 :: ds') fs = digitChar d0 :: (digitsStr ds' ++ '.' :: digitsStr fs) := rfl

theorem stripL_decToken (d0 : Fin 10) (ds' fs : List (Fin 10)) :
    stripL (decToken (d0 :: ds') fs) = decToken (d0 :: ds') fs := by
  apply stripL_ends
  · intro c hc
    rw [decToken_cons] at hc
    simp only [List.head?_cons, Option.some.injEq] at hc
    subst hc
    exact (digitChar_clean d0).1
  · intro c hc
    exact (decToken_char (mem_of_getLast?_eq hc)).1

theorem takeWhile_append_all {p : Char → Bool} {a : List Char} (b : List Char)
    (ha : ∀ c ∈ a, p c = true) (hb : ∀ c, b.head? = some c → p c = false) :
    (a ++ b).takeWhile p = a := by
  induction a with
  | nil =>
    cases b with
    | nil => rfl
    | cons y ys => simp [List.takeWhile_cons, hb y rfl]
  | cons x xs ih =>
    rw [List.cons_append, List.takeWhile_cons, if_pos (ha x (List.mem_cons_self x xs)),
      ih (fun c hc => ha c (List.mem_cons_of_mem _ hc))]

theorem takeWhile_all {p : Char → Bool} {l : List Char} (h : ∀ c ∈ l, p c = true) :
    l.takeWhile p = l := by
  induction l with
  | nil => rfl
  | cons x xs ih =>
    rw [List.takeWhile_cons, if_pos (h x (List.mem_cons_self x xs)),
      ih (fun c hc => h c (List.mem_cons_of_mem _ hc))]

theorem containsSub_head_notMem (c0 : Char) (p l : List Char) (h : c0 ∉ l) :
    containsSub (c0 :: p) l = false := by
  induction l with
  | nil => rfl
  | cons a rest ih =>
    unfold containsSub
    have hne : c0 ≠ a := fun e => h (e ▸ List.mem_cons_self a rest)
    have ha : (c0 :: p).isPrefixOf (a :: rest) = false := by
      simp [List.isPrefixOf, hne]
    rw [ha, Bool.false_or]
    exact ih (fun hm => h (List.mem_cons_of_mem a hm))

theorem digitChar_isDigit : ∀ i : Fin 10, (digitChar i).isDigit = true := by decide

theorem digitChar_toNat : ∀ i : Fin 10, (digitChar i).toNat - 48 = i.val := by decide

theorem digitsStr_length (l : List (Fin 10)) : (digitsStr l).length = l.length :=
  List.length_map l digitChar

theorem digitsStr_ne_nil (d : Fin 10) (l : List (Fin 10)) : digitsStr (d :: l) ≠ [] := by
  simp [digitsStr]

theorem digitsToNat_digitsStr (l : List (Fin 10)) :
    digitsToNat (digitsStr l) = digitsVal l := by
  unfold digitsToNat digitsStr digitsVal
  rw [List.foldl_map]
  congr 1
  funext acc i
  rw [digitChar_toNat i]

theorem decValue_nonneg (ds fs : List (Fin 10)) : 0 ≤ decValue ds fs := by
  unfold decValue
  rw [Rat.mkRat_eq_div]
  positivity

theorem pyAbs_of_nonneg (q : ℚ) (h : 0 ≤ q) : pyAbs q = q := by
  unfold pyAbs
  rw [if_neg (not_lt.mpr (Rat.num_nonneg.mpr h))]

theorem qNeg_eq_neg (q : ℚ) : qNeg q = -q := by
  unfold qNeg
  rw [Rat.mkRat_eq_div]
  push_cast
  rw [neg_div, Rat.num_div_den]

theorem strToFloat_decToken (d0 : Fin 10) (ds' fs : List (Fin 10)) :
    strToFloat (decToken (d0 :: ds') fs) = some (decValue (d0 :: ds') fs) := by
  have hne1 : ¬ (decToken (d0 :: ds') fs).head? = some '-' := by
    rw [decToken_cons]
    simp [(digitChar_clean d0).2.1]
  have hne2 : ¬ (decToken (d0 :: ds') fs).head? = some '+' := by
    rw [decToken_cons]
    simp [(digitChar_clean d0).2.2.1]
  have hint : (decToken (d0 :: ds') fs).takeWhile Char.isDigit = digitsStr (d0 :: ds') := by
    unfold decToken
    apply takeWhile_append_all
    · intro c hc
      rcases List.mem_map.mp hc with ⟨i, _, rfl⟩
      exact digitChar_isDigit i
    · intro c hc
      simp only [List.head?_cons, Option.some.injEq] at hc
      subst hc
      decide
  have hdrop : (decToken (d0 :: ds') fs).drop (digitsStr (d0 :: ds')).length =
      '.' :: digitsStr fs := List.drop_left _ _
  have hfrac : (digitsStr fs).takeWhile Char.isDigit = digitsStr fs := by
    apply takeWhile_all
    intro c hc
    rcases List.mem_map.mp hc with ⟨i, _, rfl⟩
    exact digitChar_isDigit i
  simp only [strToFloat, stripL_decToken, hne1, hne2, if_false, hint, hdrop]
  simp only [List.head?_cons, List.isEmpty_cons, Option.some.injEq, List.drop_one,
    List.tail_cons, hfrac, List.drop_length, if_false]
  simp only [digitsToNat_digitsStr, decValue, digitsStr_length, Option.some.injEq]
  rw [if_neg (by decide), if_pos trivial, if_neg (by simp), if_neg]
  · rw [one_mul]
  · intro hand
    exact digitsStr_ne_nil d0 ds' hand.1

theorem paSign_id (l : List Char) (h : ∀ c, l.head? = some c → c ≠ '-' ∧ c ≠ '+') :
    paSign l = (false, l) := by
  unfold paSign
  rw [if_neg, if_neg]
  · intro hc
    rcases hhead : l.head? with _ | c
    · rw [hhead] at hc; cases hc
    · rw [hhead, Option.some.injEq] at hc
      exact (h c hhead).2 hc
  · intro hc
    rcases hhead : l.head? with _ | c
    · rw [hhead] at hc; cases hc
    · rw [hhead, Option.some.injEq] at hc
      exact (h c hhead).1 hc

theorem paCurrency_id (neg : Bool) (l : List Char)
    (hd : '$' ∉ l)
    (hcur : ∀ c ∈ l, currencySymbols.contains c = false)
    (hstrip : stripL l = l)
    (hhead : ∀ c, l.head? = some c → c ≠ '-') :
    paCurrency neg l = (neg, l) := by
  unfold paCurrency
  have hfil : l.filter (fun c => !(currencySymbols.contains c)) = l :=
    List.filter_eq_self.mpr (fun c hc => by rw [hcur c hc]; rfl)
  rw [hfil, hstrip]
  rw [if_neg]
  · simp [containsSub_head_notMem '$' _ _ hd]
  · intro hc
    rcases hhead2 : l.head? with _ | c
    · rw [hhead2] at hc; cases hc
    · rw [hhead2, Option.some.injEq] at hc
      exact hhead c hhead2 hc

theorem paSeparators_id (l : List Char) (h : ∀ c ∈ l, c ≠ ',' ∧ c ≠ ' ') :
    paSeparators l = l := by
  have h1 : List.filter (fun c => decide (c ≠ ',')) l = l :=
    List.filter_eq_self.mpr (fun c hc => by simp [(h c hc).1])
  have h2 : List.filter (fun c => decide (c ≠ ' ')) l = l :=
    List.filter_eq_self.mpr (fun c hc => by simp [(h c hc).2])
  unfold paSeparators
  rw [h1, h2]

theorem paParens_skip (neg : Bool) (l : List Char)
    (h : ∀ c, l.head? = some c → c ≠ '(') : paParens neg l = (neg, l) := by
  unfold paParens
  rw [if_neg]
  rintro ⟨h1, -⟩
  rcases hhead : l.head? with _ | c
  · rw [hhead] at h1; cases h1
  · rw [hhead, Option.some.injEq] at h1
    exact h c hhead h1

theorem getLast?_map_toUpper (l : List Char) :
    (l.map Char.toUpper).getLast? = l.getLast?.map Char.toUpper := by
  rw [← List.head?_reverse, ← List.map_reverse, List.head?_map, List.head?_reverse]

theorem paSuffix_skip (neg : Bool) (l : List Char)
    (h : ∀ c, l.getLast? = some c → Char.toUpper c ≠ 'R') :
    paSuffix neg l = (neg, l) := by
  unfold paSuffix
  have key : ∀ a b : Char, (l.map Char.toUpper).drop ((l.map Char.toUpper).length - 2) ≠
      [a, 'R'] := by
    intro a b heq
    have hsuf : ∃ t, t ++ [a, 'R'] = l.map Char.toUpper := by
      have := List.drop_suffix ((l.map Char.toUpper).length - 2) (l.map Char.toUpper)
      rw [heq] at this
      exact this
    obtain ⟨t, ht⟩ := hsuf
    have hlast : (l.map Char.toUpper).getLast? = some 'R' := by
      rw [← ht]
      rw [show ([a, 'R'] : List Char) = [a] ++ ['R'] from rfl, ← List.append_assoc]
      exact List.getLast?_concat _
    rw [getLast?_map_toUpper] at hlast
    rcases hlastl : l.getLast? with _ | c
    · rw [hlastl] at hlast; cases hlast
    · rw [hlastl] at hlast
      simp only [Option.map_some', Option.some.injEq] at hlast
      exact h c hlastl hlast
  rw [if_neg (key 'C' 'R'), if_neg (key 'D' 'R')]

theorem decToken_head? (d0 : Fin 10) (ds' fs : List (Fin 10)) :
    (decToken (d0 :: ds') fs).head? = some (digitChar d0) := by
  rw [decToken_cons]
  rfl

theorem decToken_no_sep (ds fs : List (Fin 10)) : ∀ c ∈ decToken ds fs, c ≠ ',' ∧ c ≠ ' ' :=
  fun c hc => ⟨(decToken_char hc).2.2.2.2.1, (decToken_char hc).2.2.2.2.2.1⟩

theorem paSeparators_append (a b : List Char) :
    paSeparators (a ++ b) = paSeparators a ++ paSeparators b := by
  unfold paSeparators
  rw [List.filter_append, List.filter_append]

theorem paSeparators_decToken (ds fs : List (Fin 10)) :
    paSeparators (decToken ds fs) = decToken ds fs :=
  paSeparators_id _ (decToken_no_sep ds fs)

theorem paSign_decToken (d0 : Fin 10) (ds' fs : List (Fin 10)) :
    paSign (decToken (d0 :: ds') fs) = (false, decToken (d0 :: ds') fs) := by
  apply paSign_id
  intro c hc
  rw [decToken_head?, Option.some.injEq] at hc
  exact hc ▸ ⟨(digitChar_clean d0).2.1, (digitChar_clean d0).2.2.1⟩

theorem paCurrency_decToken (neg : Bool) (d0 : Fin 10) (ds' fs : List (Fin 10)) :
    paCurrency neg (decToken (d0 :: ds') fs) = (neg, decToken (d0 :: ds') fs) := by
  apply paCurrency_id
  · intro h
    exact (decToken_char h).2.2.2.1 rfl
  · exact fun c hc => (decToken_char hc).2.2.2.2.2.2.2.1
  · exact stripL_decToken d0 ds' fs
  · intro c hc
    rw [decToken_head?, Option.some.injEq] at hc
    exact hc ▸ (digitChar_clean d0).2.1

theorem paParens_decToken (neg : Bool) (d0 : Fin 10) (ds' fs : List (Fin 10)) :
    paParens neg (decToken (d0 :: ds') fs) = (neg, decToken (d0 :: ds') fs) := by
  apply paParens_skip
  intro c hc
  rw [decToken_head?, Option.some.injEq] at hc
  exact hc ▸ (digitChar_clean d0).2.2.2.2.2.2.1

theorem paSuffix_decToken (neg : Bool) (ds fs : List (Fin 10)) :
    paSuffix neg (decToken ds fs) = (neg, decToken ds fs) :=
  paSuffix_skip neg _ (fun c hc => (decToken_char (mem_of_getLast?_eq hc)).2.2.2.2.2.2.2.2)

theorem paSuffix_cr (neg : Bool) (t : List Char) :
    paSuffix neg (t ++ ['C', 'R']) = (false, t) := by
  have hupper : (['C', 'R'] : List Char).map Char.toUpper = ['C', 'R'] := by decide
  have hmap : (t ++ ['C', 'R']).map Char.toUpper = t.map Char.toUpper ++ ['C', 'R'] := by
    rw [List.map_append, hupper]
  have hlen : (t.map Char.toUpper ++ ['C', 'R']).length - 2 = (t.map Char.toUpper).length := by
    simp
  have hdrop : ((t ++ ['C', 'R']).map Char.toUpper).drop
      (((t ++ ['C', 'R']).map Char.toUpper).length - 2) = ['C', 'R'] := by
    rw [hmap, hlen, List.drop_left]
  have htake : (t ++ ['C', 'R']).length - 2 = t.length := by
    simp
  unfold paSuffix
  simp only []
  rw [hdrop, if_pos rfl, htake, List.take_left]

/-! `digitChar` is made irreducible here: its evaluation on a symbolic digit
otherwise sends definitional unfolding into the character-validity bound of
`Char.ofNat`.  Every computational fact about it has been established above. -/

attribute [irreducible] digitChar

/-- Assembly of `parseAmountL` from the results of its cleaning steps,
stated over abstract intermediate values. -/
theorem parseAmountL_steps (s0 : List Char) (dn : Bool) (c : List Char)
    (p1 p2 : Bool × List Char) (s3 : List Char) (p3 p4 : Bool × List Char) (v : ℚ)
    (hne : s0.isEmpty = false) (hstrip : stripL s0 = c) (hcne : c.isEmpty = false)
    (h1 : paSign c = p1) (h2 : paCurrency p1.1 p1.2 = p2)
    (h3 : paSeparators p2.2 = s3) (h4 : paParens p2.1 s3 = p3)
    (h5 : paSuffix p3.1 p3.2 = p4) (h6 : strToFloat p4.2 = some v) :
    parseAmountL s0 dn = some (if p4.1 then qNeg (pyAbs v) else pyAbs v) := by
  have hp : paPipeline c = p4 := by
    unfold paPipeline paSuffixP paParensP paCurrencyP
    rw [h1, h2, h3, h4]
    exact h5
  unfold parseAmountL
  rw [hne, if_neg (by decide : ¬ (false = true)), hstrip, hcne,
    if_neg (by decide : ¬ (false = true)), hp, h6]

/-- The delimited cleaning pipeline on a trailing-CR token: the suffix wins
over every earlier sign decision and the value comes back positive. -/
theorem parseAmountL_cr (d0 : Fin 10) (ds' fs : List (Fin 10)) :
    parseAmountL (decToken (d0 :: ds') fs ++ [' ', 'C', 'R']) false =
      some (decValue (d0 :: ds') fs) := by
  have hhead : (decToken (d0 :: ds') fs ++ [' ', 'C', 'R']).head? = some (digitChar d0) := by
    rw [decToken_cons, List.cons_append]
    rfl
  have hne : (decToken (d0 :: ds') fs ++ [' ', 'C', 'R']).isEmpty = false := by
    rw [decToken_cons, List.cons_append]
    rfl
  have hlast : (decToken (d0 :: ds') fs ++ [' ', 'C', 'R']).getLast? = some 'R' := by
    rw [show ([' ', 'C', 'R'] : List Char) = [' ', 'C'] ++ ['R'] from rfl, ← List.append_assoc]
    exact List.getLast?_concat _
  have hstrip : stripL (decToken (d0 :: ds') fs ++ [' ', 'C', 'R']) =
      decToken (d0 :: ds') fs ++ [' ', 'C', 'R'] := by
    apply stripL_ends
    · intro c hc
      rw [hhead, Option.some.injEq] at hc
      exact hc ▸ (digitChar_clean d0).1
    · intro c hc
      rw [hlast, Option.some.injEq] at hc
      subst hc
      decide
  have hsign : paSign (decToken (d0 :: ds') fs ++ [' ', 'C', 'R']) =
      (false, decToken (d0 :: ds') fs ++ [' ', 'C', 'R']) := by
    apply paSign_id
    intro c hc
    rw [hhead, Option.some.injEq] at hc
    exact hc ▸ ⟨(digitChar_clean d0).2.1, (digitChar_clean d0).2.2.1⟩
  have hcur : paCurrency false (decToken (d0 :: ds') fs ++ [' ', 'C', 'R']) =
      (false, decToken (d0 :: ds') fs ++ [' ', 'C', 'R']) := by
    apply paCurrency_id
    · intro h
      rcases List.mem_append.mp h with h | h
      · exact (decToken_char h).2.2.2.1 rfl
      · exact absurd h (by decide)
    · intro c hc
      rcases List.mem_append.mp hc with h | h
      · exact (decToken_char h).2.2.2.2.2.2.2.1
      · simp only [List.mem_cons, List.not_mem_nil, or_false] at h
        rcases h with rfl | rfl | rfl <;> decide
    · exact hstrip
    · intro c hc
      rw [hhead, Option.some.injEq] at hc
      exact hc ▸ (digitChar_clean d0).2.1
  have hsep : paSeparators (decToken (d0 :: ds') fs ++ [' ', 'C', 'R']) =
      decToken (d0 :: ds') fs ++ ['C', 'R'] := by
    rw [paSeparators_append, paSeparators_decToken,
      show paSeparators [' ', 'C', 'R'] = ['C', 'R'] from by decide]
  have hpar : paParens false (decToken (d0 :: ds') fs ++ ['C', 'R']) =
      (false, decToken (d0 :: ds') fs ++ ['C', 'R']) := by
    apply paParens_skip
    intro c hc
    rw [decToken_cons, List.cons_append, List.head?_cons, Option.some.injEq] at hc
    exact hc ▸ (digitChar_clean d0).2.2.2.2.2.2.1
  have hsuf := paSuffix_cr false (decToken (d0 :: ds') fs)
  rw [parseAmountL_steps _ _ _ _ _ _ _ _ _ hne hstrip hne hsign hcur hsep hpar hsuf
    (strToFloat_decToken d0 ds' fs)]
  show some (pyAbs (decValue (d0 :: ds') fs)) = some (decValue (d0 :: ds') fs)
  rw [pyAbs_of_nonneg _ (decValue_nonneg _ _)]

/-- The delimited cleaning pipeline on a parenthesised token: accounting
parentheses force a negative value. -/
theorem parseAmountL_paren (d0 : Fin 10) (ds' fs : List (Fin 10)) :
    parseAmountL ('(' :: (decToken (d0 :: ds') fs ++ [')'])) false =
      some (-(decValue (d0 :: ds') fs)) := by
  have hne0 : ('(' :: (decToken (d0 :: ds') fs ++ [')'])).isEmpty = false := rfl
  have hlast : ('(' :: (decToken (d0 :: ds') fs ++ [')'])).getLast? = some ')' := by
    rw [← List.cons_append]
    exact List.getLast?_concat _
  have hstrip : stripL ('(' :: (decToken (d0 :: ds') fs ++ [')'])) =
      '(' :: (decToken (d0 :: ds') fs ++ [')']) := by
    apply stripL_ends
    · intro c hc
      rw [List.head?_cons, Option.some.injEq] at hc
      subst hc
      decide
    · intro c hc
      rw [hlast, Option.some.injEq] at hc
      subst hc
      decide
  have hsign : paSign ('(' :: (decToken (d0 :: ds') fs ++ [')'])) =
      (false, '(' :: (decToken (d0 :: ds') fs ++ [')'])) := by
    apply paSign_id
    intro c hc
    rw [List.head?_cons, Option.some.injEq] at hc
    subst hc
    exact ⟨by decide, by decide⟩
  have hcur : paCurrency false ('(' :: (decToken (d0 :: ds') fs ++ [')'])) =
      (false, '(' :: (decToken (d0 :: ds') fs ++ [')'])) := by
    apply paCurrency_id
    · intro h
      rcases List.mem_cons.mp h with h | h
      · exact absurd h (by decide)
      · rcases List.mem_append.mp h with h | h
        · exact (decToken_char h).2.2.2.1 rfl
        · exact absurd h (by decide)
    · intro c hc
      rcases List.mem_cons.mp hc with rfl | h
      · decide
      · rcases List.mem_append.mp h with h | h
        · exact (decToken_char h).2.2.2.2.2.2.2.1
        · simp only [List.mem_cons, List.not_mem_nil, or_false] at h
          subst h
          decide
    · exact hstrip
    · intro c hc
      rw [List.head?_cons, Option.some.injEq] at hc
      subst hc
      decide
  have hsep : paSeparators ('(' :: (decToken (d0 :: ds') fs ++ [')'])) =
      '(' :: (decToken (d0 :: ds') fs ++ [')']) := by
    apply paSeparators_id
    intro c hc
    rcases List.mem_cons.mp hc with rfl | h
    · exact ⟨by decide, by decide⟩
    · rcases List.mem_append.mp h with h | h
      · exact (decToken_no_sep _ _ c h)
      · simp only [List.mem_cons, List.not_mem_nil, or_false] at h
        subst h
        exact ⟨by decide, by decide⟩
  have hpar : paParens false ('(' :: (decToken (d0 :: ds') fs ++ [')'])) =
      (true, decToken (d0 :: ds') fs) := by
    unfold paParens
    rw [if_pos ⟨rfl, hlast⟩]
    show (true, (decToken (d0 :: ds') fs ++ [')']).dropLast) = _
    rw [List.dropLast_concat]
  have hsuf := paSuffix_decToken true (d0 :: ds') fs
  rw [parseAmountL_steps _ _ _ _ _ _ _ _ _ hne0 hstrip hne0 hsign hcur hsep hpar hsuf
    (strToFloat_decToken d0 ds' fs)]
  show some (qNeg (pyAbs (decValue (d0 :: ds') fs))) = some (-(decValue (d0 :: ds') fs))
  rw [pyAbs_of_nonneg _ (decValue_nonneg _ _), qNeg_eq_neg]

/-- The delimited cleaning pipeline on a leading-minus token. -/
theorem parseAmountL_minus (d0 : Fin 10) (ds' fs : List (Fin 10)) :
    parseAmountL ('-' :: decToken (d0 :: ds') fs) false =
      some (-(decValue (d0 :: ds') fs)) := by
  have hne0 : ('-' :: decToken (d0 :: ds') fs).isEmpty = false := rfl
  have hlast : ('-' :: decToken (d0 :: ds') fs).getLast? =
      (decToken (d0 :: ds') fs).getLast? := by
    rw [decToken_cons]
    exact List.getLast?_cons_cons
  have hstrip : stripL ('-' :: decToken (d0 :: ds') fs) =
      '-' :: decToken (d0 :: ds') fs := by
    apply stripL_ends
    · intro c hc
      rw [List.head?_cons, Option.some.injEq] at hc
      subst hc
      decide
    · intro c hc
      rw [hlast] at hc
      exact (decToken_char (mem_of_getLast?_eq hc)).1
  have hneg : ¬ ((digitChar d0 == '-' || digitChar d0 == ' ') = true) := by
    simp [(digitChar_clean d0).2.1, (digitChar_clean d0).2.2.2.2.2.1]
  have hsign : paSign ('-' :: decToken (d0 :: ds') fs) =
      (true, decToken (d0 :: ds') fs) := by
    unfold paSign
    rw [if_pos (show ('-' :: decToken (d0 :: ds') fs).head? = some '-' from rfl),
      List.dropWhile_cons, if_pos (by decide), decToken_cons, List.dropWhile_cons,
      if_neg hneg]
  have hcur := paCurrency_decToken true d0 ds' fs
  have hsep := paSeparators_decToken (d0 :: ds') fs
  have hpar := paParens_decToken true d0 ds' fs
  have hsuf := paSuffix_decToken true (d0 :: ds') fs
  rw [parseAmountL_steps _ _ _ _ _ _ _ _ _ hne0 hstrip hne0 hsign hcur hsep hpar hsuf
    (strToFloat_decToken d0 ds' fs)]
  show some (qNeg (pyAbs (decValue (d0 :: ds') fs))) = some (-(decValue (d0 :: ds') fs))
  rw [pyAbs_of_nonneg _ (decValue_nonneg _ _), qNeg_eq_neg]

/-- The delimited cleaning pipeline on a currency-adjacent minus: stripping
the symbol exposes the minus, which sets the negative flag. -/
theorem parseAmountL_dollar_minus (d0 : Fin 10) (ds' fs : List (Fin 10)) :
    parseAmountL ('$' :: '-' :: decToken (d0 :: ds') fs) false =
      some (-(decValue (d0 :: ds') fs)) := by
  have hne0 : ('$' :: '-' :: decToken (d0 :: ds') fs).isEmpty = false := rfl
  have hlast : ('$' :: '-' :: decToken (d0 :: ds') fs).getLast? =
      (decToken (d0 :: ds') fs).getLast? := by
    rw [decToken_cons, List.getLast?_cons_cons]
    exact List.getLast?_cons_cons
  have hstrip : stripL ('$' :: '-' :: decToken (d0 :: ds') fs) =
      '$' :: '-' :: decToken (d0 :: ds') fs := by
    apply stripL_ends
    · intro c hc
      rw [List.head?_cons, Option.some.injEq] at hc
      subst hc
      decide
    · intro c hc
      rw [hlast] at hc
      exact (decToken_char (mem_of_getLast?_eq hc)).1
  have hstripm : stripL ('-' :: decToken (d0 :: ds') fs) =
      '-' :: decToken (d0 :: ds') fs := by
    apply stripL_ends
    · intro c hc
      rw [List.head?_cons, Option.some.injEq] at hc
      subst hc
      decide
    · intro c hc
      rw [decToken_cons, List.getLast?_cons_cons] at hc
      rw [← decToken_cons] at hc
      exact (decToken_char (mem_of_getLast?_eq hc)).1
  have hsign : paSign ('$' :: '-' :: decToken (d0 :: ds') fs) =
      (false, '$' :: '-' :: decToken (d0 :: ds') fs) := by
    apply paSign_id
    intro c hc
    rw [List.head?_cons, Option.some.injEq] at hc
    subst hc
    exact ⟨by decide, by decide⟩
  have hfil : ('$' :: '-' :: decToken (d0 :: ds') fs).filter
      (fun c => !(currencySymbols.contains c)) = '-' :: decToken (d0 :: ds') fs := by
    rw [List.filter_cons, if_neg (by decide), List.filter_cons, if_pos (by decide)]
    congr 1
    exact List.filter_eq_self.mpr
      (fun c hc => by rw [(decToken_char hc).2.2.2.2.2.2.2.1]; rfl)
  have hcur : paCurrency false ('$' :: '-' :: decToken (d0 :: ds') fs) =
      (true, decToken (d0 :: ds') fs) := by
    unfold paCurrency
    rw [hfil, hstripm]
    rfl
  have hsep := paSeparators_decToken (d0 :: ds') fs
  have hpar := paParens_decToken true d0 ds' fs
  have hsuf := paSuffix_decToken true (d0 :: ds') fs
  rw [parseAmountL_steps _ _ _ _ _ _ _ _ _ hne0 hstrip hne0 hsign hcur hsep hpar hsuf
    (strToFloat_decToken d0 ds' fs)]
  show some (qNeg (pyAbs (decValue (d0 :: ds') fs))) = some (-(decValue (d0 :: ds') fs))
  rw [pyAbs_of_nonneg _ (decValue_nonneg _ _), qNeg_eq_neg]

/-- C1: the shared amount parser normalises sign conventions.  For every
decimal numeral with a non-empty integer part and arbitrary fractional part,
a trailing " CR" yields the positive value, surrounding parentheses yield
the negated value, a leading minus yields the negated value, and a minus
adjacent to the currency symbol yields the negated value; in particular
"100.00 CR" parses to +100.00, "(45.50)" to minus 45.50, "$-12.34" to
minus 12.34, and the unparsable remainder "abc" yields none. -/
theorem claim_C1_amount_sign_conventions (d0 : Fin 10) (ds' fs : List (Fin 10)) :
    parse_amount (String.mk (decToken (d0 :: ds') fs ++ [' ', 'C', 'R'])) =
      some (decValue (d0 :: ds') fs) ∧
    parse_amount (String.mk ('(' :: (decToken (d0 :: ds') fs ++ [')']))) =
      some (-(decValue (d0 :: ds') fs)) ∧
    parse_amount (String.mk ('-' :: decToken (d0 :: ds') fs)) =
      some (-(decValue (d0 :: ds') fs)) ∧
    parse_amount (String.mk ('$' :: '-' :: decToken (d0 :: ds') fs)) =
      some (-(decValue (d0 :: ds') fs)) ∧
    parse_amount "100.00 CR" = some 100 ∧
    parse_amount "(45.50)" = some (-(mkRat 91 2)) ∧
    parse_amount "$-12.34" = some (-(mkRat 617 50)) ∧
    parse_amount "abc" = none :=
  ⟨parseAmountL_cr d0 ds' fs, parseAmountL_paren d0 ds' fs, parseAmountL_minus d0 ds' fs,
    parseAmountL_dollar_minus d0 ds' fs, by decide, by decide, by decide, by decide⟩

end NetworthProof

